import Mathlib

/-!
A shallow embedding of the waste-classification core of the `ecrspectre`
repository (Go), together with theorems settling the frozen claims about it.

Modelling conventions:
* Go `float64` dollar amounts and per-GB rates are modelled as exact
  rationals (`ℚ`).
* Instants (`time.Time`) are modelled as integers counting seconds;
  `t.AddDate(0, 0, d)` is modelled as `t + d * 86400` and `a.Before(b)` as
  `a < b`.  A nil `*time.Time` (and, for GCP, a `time.Time` whose `IsZero`
  holds) is modelled as `none`.
* Go maps used as sets (`map[string]bool`) are modelled as `List String`
  with membership; Go maps used for lookups are association lists, with a
  missing key yielding the Go zero value.
* Fallible collaborator calls (AWS/GCP API round trips) are modelled as
  `Except String` values carried in an environment structure: the scanner
  code under verification consumes their results exactly as the Go source
  does.
* `fmt.Sprintf` output that interpolates floating-point numbers is kept as
  the surrounding literal text; no claim depends on message strings.
-/

namespace EcrSpectre

/-! ## registry/types.go — data model -/

/-- Severity levels for findings (registry.Severity). -/
inductive Severity where
  | critical
  | high
  | medium
  | low
deriving DecidableEq

/-- The Go string value of a severity constant. -/
def severityString : Severity → String
  | .critical => "critical"
  | .high => "high"
  | .medium => "medium"
  | .low => "low"

/-- Resource type of the audited registry resource (registry.ResourceType). -/
inductive ResourceType where
  | image
  | repository
deriving DecidableEq

/-- The Go string value of a resource-type constant. -/
def resourceTypeString : ResourceType → String
  | .image => "image"
  | .repository => "repository"

/-- The seven finding kinds (registry.FindingID). -/
inductive FindingID where
  | untaggedImage
  | staleImage
  | largeImage
  | noLifecyclePolicy
  | vulnerableImage
  | unusedRepo
  | multiArchBloat
deriving DecidableEq

/-- A value of the open-ended `map[string]any` metadata of a finding.
Timestamps that the Go code stores RFC3339-formatted are kept as the raw
instant. -/
inductive MetaValue where
  | int (i : Int)
  | str (s : String)
deriving DecidableEq

/-- registry.Finding — one waste detection result. -/
structure Finding where
  id : FindingID
  severity : Severity
  resourceType : ResourceType
  resourceID : String
  resourceName : String := ""
  region : String
  message : String
  estimatedMonthlyWaste : ℚ := 0
  metadata : List (String × MetaValue) := []
deriving DecidableEq

/-- registry.ScanResult — the accumulating output of one provider scan. -/
structure ScanResult where
  findings : List Finding := []
  errors : List String := []
  resourcesScanned : Nat := 0
  repositoriesScanned : Nat := 0
deriving DecidableEq

/-- registry.ScanConfig.  `Exclude.Tags` is carried for fidelity but is not
read by either scanner. -/
structure ScanConfig where
  staleDays : Int
  maxSizeBytes : Int
  minMonthlyCost : ℚ := 0
  excludeResourceIDs : List String := []
  excludeTags : List (String × String) := []
deriving DecidableEq

/-! ## internal/pricing — the pricing oracle -/

/-- The `"ecr"` entry of pricing.StorageCosts: $0.10/GB/month everywhere. -/
def ecrRates : List (String × ℚ) := [("default", 1/10)]

/-- The `"artifactregistry"` entry of pricing.StorageCosts. -/
def arRates : List (String × ℚ) :=
  [("us", 1/10), ("europe", 1/10), ("asia", 1/10),
   ("us-central1", 1/10), ("us-east1", 1/10), ("us-east4", 1/10),
   ("us-west1", 1/10), ("us-west2", 1/10),
   ("europe-west1", 1/10), ("europe-west2", 1/10), ("europe-west4", 1/10),
   ("asia-east1", 1/10), ("asia-southeast1", 1/10),
   ("default", 1/10)]

/-- pricing.StorageCosts: provider → region → per-GB monthly USD rate. -/
def StorageCosts : List (String × List (String × ℚ)) :=
  [("ecr", ecrRates), ("artifactregistry", arRates)]

/-- Indexing a Go `map[string]float64`: a missing key yields the zero value. -/
def mapGetRat (m : List (String × ℚ)) (k : String) : ℚ :=
  (m.lookup k).getD 0

/-- pricing.lookupCostPerGB.  An unknown provider falls back to
`StorageCosts["ecr"]["default"]`; an unknown region falls back to the
provider's `"default"` entry. -/
def lookupCostPerGB (provider region : String) : ℚ :=
  match StorageCosts.lookup provider with
  | none => mapGetRat ((StorageCosts.lookup "ecr").getD []) "default"
  | some providerCosts =>
    match providerCosts.lookup region with
    | none => mapGetRat providerCosts "default"
    | some cost => cost

/-- pricing.MonthlyStorageCost: `sizeGB * costPerGB` with
`sizeGB = sizeBytes / (1024*1024*1024)`. -/
def MonthlyStorageCost (provider region : String) (sizeBytes : Int) : ℚ :=
  (sizeBytes : ℚ) / (1024 * 1024 * 1024) * lookupCostPerGB provider region

/-- Modelled from the spec: the rate-lookup cascade as §4.1 words it —
first the exact (provider, region) key, then (provider, "default"), then
the single global default rate of $0.10/GB-month. -/
def lookupCascadeSpec (provider region : String) : ℚ :=
  match (StorageCosts.lookup provider).bind (fun pc => pc.lookup region) with
  | some c => c
  | none =>
    match (StorageCosts.lookup provider).bind (fun pc => pc.lookup "default") with
    | some c => c
    | none => 1/10

/-! ## Time and Go string helpers -/

/-- Go `t.AddDate(0, 0, d)` on an instant measured in seconds. -/
def addDays (t d : Int) : Int := t + d * 86400

/-- One level of `strings.Contains`: does `sub` occur starting at some
position of the second argument? -/
def containsAux (sub : List Char) : List Char → Bool
  | [] => sub.isEmpty
  | c :: rest => sub.isPrefixOf (c :: rest) || containsAux sub rest

/-- Go `strings.Contains s sub`. -/
def goContains (s sub : String) : Bool :=
  containsAux sub.toList s.toList

/-- Go `strings.Join tags ","`. -/
def joinComma : List String → String
  | [] => ""
  | [t] => t
  | t :: u :: rest => t ++ "," ++ joinComma (u :: rest)

/-- ecr.deref — dereference a `*string`, nil becomes `""`. -/
def deref (s : Option String) : String := s.getD ""

/-- ecr.derefInt64 — dereference a `*int64`, nil becomes `0`. -/
def derefInt64 (p : Option Int) : Int := p.getD 0

/-- Boolean test used throughout: does a finding carry the given ID? -/
def hasID (i : FindingID) (f : Finding) : Bool := decide (f.id = i)

/-! ## internal/ecr/scanner.go — the AWS ECR scanner -/

/-- The fields of ecrtypes.ImageDetail read by the scanner.  Pointer-typed
SDK fields are `Option`s. -/
structure EcrImage where
  imageDigest : Option String
  imageTags : List String
  imageSizeInBytes : Option Int
  imagePushedAt : Option Int
  lastRecordedPullTime : Option Int
  imageManifestMediaType : Option String
deriving DecidableEq

/-- ecr.lastActivityTime — prefers LastRecordedPullTime, falls back to
ImagePushedAt. -/
def lastActivityTime (img : EcrImage) : Option Int :=
  match img.lastRecordedPullTime with
  | some t => some t
  | none => img.imagePushedAt

/-- The shared per-image quantities computed at the top of
ecr.(*ECRScanner).analyzeImage. -/
def ecrImageID (repoName : String) (img : EcrImage) : String :=
  repoName ++ "@" ++ deref img.imageDigest

/-- The `sizeBytes := derefInt64(img.ImageSizeInBytes)` binding. -/
def ecrSizeBytes (img : EcrImage) : Int := derefInt64 img.imageSizeInBytes

/-- The `cost := pricing.MonthlyStorageCost("ecr", s.region, sizeBytes)` binding. -/
def ecrCost (region : String) (img : EcrImage) : ℚ :=
  MonthlyStorageCost "ecr" region (ecrSizeBytes img)

/-- The human-readable resource name derived from the tag list. -/
def ecrResourceName (repoName : String) (img : EcrImage) : String :=
  if img.imageTags.length > 0 then repoName ++ ":" ++ joinComma img.imageTags else ""

/-- analyzeImage, untagged-image rule block. -/
def ecrUntaggedBlock (region repoName : String) (img : EcrImage) : List Finding :=
  if img.imageTags.length = 0 then
    [{ id := .untaggedImage, severity := .high, resourceType := .image,
       resourceID := ecrImageID repoName img, region := region,
       message := "Untagged image",
       estimatedMonthlyWaste := ecrCost region img,
       metadata := [("size_bytes", .int (ecrSizeBytes img)),
                    ("digest", .str (deref img.imageDigest))] }]
  else []

/-- analyzeImage, stale-image rule block: fires when `staleDays > 0` and the
last activity instant lies strictly before `now.AddDate(0,0,-staleDays)`. -/
def ecrStaleBlock (now : Int) (region : String) (cfg : ScanConfig)
    (repoName : String) (img : EcrImage) : List Finding :=
  if cfg.staleDays > 0 then
    match lastActivityTime img with
    | some lastActivity =>
      if lastActivity < addDays now (-cfg.staleDays) then
        [{ id := .staleImage, severity := .high, resourceType := .image,
           resourceID := ecrImageID repoName img,
           resourceName := ecrResourceName repoName img, region := region,
           message := "Not pulled in days",
           estimatedMonthlyWaste := ecrCost region img,
           metadata := [("last_pull", .int lastActivity),
                        ("days_stale", .int ((now - lastActivity) / 86400)),
                        ("size_bytes", .int (ecrSizeBytes img)),
                        ("stale_days", .int cfg.staleDays)] }]
      else []
    | none => []
  else []

/-- analyzeImage, large-image rule block. -/
def ecrLargeBlock (region : String) (cfg : ScanConfig)
    (repoName : String) (img : EcrImage) : List Finding :=
  if cfg.maxSizeBytes > 0 ∧ ecrSizeBytes img > cfg.maxSizeBytes then
    [{ id := .largeImage, severity := .medium, resourceType := .image,
       resourceID := ecrImageID repoName img,
       resourceName := ecrResourceName repoName img, region := region,
       message := "Image exceeds threshold",
       estimatedMonthlyWaste := ecrCost region img,
       metadata := [("size_bytes", .int (ecrSizeBytes img)),
                    ("threshold_bytes", .int cfg.maxSizeBytes)] }]
  else []

/-- analyzeImage, multi-arch-bloat rule block: requires a non-nil manifest
media type containing the substring `"manifest.list"` and then re-evaluates
the stale condition. -/
def ecrMultiArchBlock (now : Int) (region : String) (cfg : ScanConfig)
    (repoName : String) (img : EcrImage) : List Finding :=
  match img.imageManifestMediaType with
  | some mediaType =>
    if goContains mediaType "manifest.list" then
      if cfg.staleDays > 0 then
        match lastActivityTime img with
        | some lastActivity =>
          if lastActivity < addDays now (-cfg.staleDays) then
            [{ id := .multiArchBloat, severity := .low, resourceType := .image,
               resourceID := ecrImageID repoName img,
               resourceName := ecrResourceName repoName img, region := region,
               message := "Stale multi-architecture image",
               estimatedMonthlyWaste := ecrCost region img,
               metadata := [("size_bytes", .int (ecrSizeBytes img)),
                            ("media_type", .str mediaType)] }]
          else []
        | none => []
      else []
    else []
  | none => []

/-- ecr.(*ECRScanner).analyzeImage — the per-image rule pass; the four rule
blocks appear in source order. -/
def ecrAnalyzeImage (now : Int) (region : String) (cfg : ScanConfig)
    (repoName : String) (img : EcrImage) : List Finding :=
  ecrUntaggedBlock region repoName img ++
  ecrStaleBlock now region cfg repoName img ++
  ecrLargeBlock region cfg repoName img ++
  ecrMultiArchBlock now region cfg repoName img

/-- One repository as the ECR scanner sees it: the `DescribeRepositories`
record plus the outcomes of the per-repository collaborator calls
(`ListImages`, `HasLifecyclePolicy`). -/
structure EcrRepoEnv where
  repositoryName : Option String
  listImages : Except String (List EcrImage)
  hasLifecyclePolicy : Except String Bool

/-- The per-image classification loop shared verbatim by both scanners:
increments ResourcesScanned, appends the findings of each image, and counts
the STALE_IMAGE findings among them. -/
def classifyImagesLoop {α : Type} (analyze : α → List Finding)
    (images : List α) (acc : ScanResult × Nat) : ScanResult × Nat :=
  images.foldl
    (fun p img =>
      let fs := analyze img
      ({ p.1 with
          resourcesScanned := p.1.resourcesScanned + 1,
          findings := p.1.findings ++ fs },
       p.2 + fs.countP (hasID .staleImage)))
    acc

/-- The UNUSED_REPO finding for a repository with zero images. -/
def ecrEmptyRepoFinding (region repoName : String) : Finding :=
  { id := .unusedRepo, severity := .low, resourceType := .repository,
    resourceID := repoName, region := region,
    message := "Repository has no images",
    estimatedMonthlyWaste := 0 }

/-- The NO_LIFECYCLE_POLICY finding. -/
def ecrNoLifecycleFinding (region repoName : String) : Finding :=
  { id := .noLifecyclePolicy, severity := .medium, resourceType := .repository,
    resourceID := repoName, region := region,
    message := "No lifecycle policy configured — images accumulate indefinitely" }

/-- The repository-level UNUSED_REPO finding emitted when every image is
stale; its waste is the summed per-image monthly storage cost. -/
def ecrAllStaleFinding (region repoName : String) (images : List EcrImage) : Finding :=
  { id := .unusedRepo, severity := .low, resourceType := .repository,
    resourceID := repoName, region := region,
    message := "All images are stale",
    estimatedMonthlyWaste :=
      (images.map (fun img =>
        MonthlyStorageCost "ecr" region (derefInt64 img.imageSizeInBytes))).sum,
    metadata := [("image_count", .int images.length)] }

/-- ecr.(*ECRScanner).scanRepository. -/
def ecrScanRepository (now : Int) (region : String) (cfg : ScanConfig)
    (repo : EcrRepoEnv) (result : ScanResult) : ScanResult :=
  let repoName := deref repo.repositoryName
  match repo.listImages with
  | .error e =>
    { result with errors := result.errors ++ [region ++ "/" ++ repoName ++ ": " ++ e] }
  | .ok images =>
    if images.length = 0 then
      { result with findings := result.findings ++ [ecrEmptyRepoFinding region repoName] }
    else
      let result1 :=
        match repo.hasLifecyclePolicy with
        | .error e =>
          { result with
              errors := result.errors ++ [region ++ "/" ++ repoName ++ " lifecycle: " ++ e] }
        | .ok hasPolicy =>
          if !hasPolicy then
            { result with
                findings := result.findings ++ [ecrNoLifecycleFinding region repoName] }
          else result
      let loop := classifyImagesLoop (ecrAnalyzeImage now region cfg repoName) images (result1, 0)
      if loop.2 = images.length ∧ images.length > 0 then
        { loop.1 with
            findings := loop.1.findings ++ [ecrAllStaleFinding region repoName images] }
      else loop.1

/-- The environment of one ECR scan invocation: the outcome of the paginated
`ListRepositories` call, each repository bundled with its own collaborator
outcomes. -/
structure EcrEnv where
  listRepositories : Except String (List EcrRepoEnv)

/-- ecr.(*ECRScanner).Scan. -/
def ecrScan (now : Int) (region : String) (cfg : ScanConfig) (env : EcrEnv) : ScanResult :=
  match env.listRepositories with
  | .error e =>
    { findings := [], errors := [region ++ ": " ++ e],
      resourcesScanned := 0, repositoriesScanned := 0 }
  | .ok repos =>
    repos.foldl
      (fun r repo =>
        if cfg.excludeResourceIDs.contains (deref repo.repositoryName) then r
        else ecrScanRepository now region cfg repo r)
      { findings := [], errors := [],
        resourcesScanned := 0, repositoriesScanned := repos.length }

/-- One `ecrtypes.ImageScanFinding` as read by ScanVulnerabilities: only its
severity string is consumed. -/
structure ImageScanFinding where
  severity : String
deriving DecidableEq

/-- The `DescribeImageScanFindingsOutput` as read by ScanVulnerabilities:
`ImageScanFindings` is a nil-able pointer holding the findings slice. -/
structure ImageScanFindingsOut where
  imageScanFindings : Option (List ImageScanFinding)
deriving DecidableEq

/-- ecr.(*ECRScanner).ScanVulnerabilities.  Returns the produced findings
and the returned Go `error` (which is `nil` on every path: a failed
`DescribeImageScanFindings` call is logged at debug level and swallowed).
The `severity_counts` map stored in the metadata is abstracted to the
critical/high counts the code reads from it. -/
def scanVulnerabilities (region repoName digest : String)
    (resp : Except String ImageScanFindingsOut) : List Finding × Option String :=
  match resp with
  | .error _ => ([], none)
  | .ok out =>
    match out.imageScanFindings with
    | none => ([], none)
    | some fs =>
      if fs.length = 0 then ([], none)
      else
        let critCount := fs.countP (fun f => f.severity == "CRITICAL")
        let highCount := fs.countP (fun f => f.severity == "HIGH")
        let total := fs.length
        if critCount = 0 ∧ highCount = 0 then ([], none)
        else
          ([{ id := .vulnerableImage, severity := .critical, resourceType := .image,
              resourceID := repoName ++ "@" ++ digest, region := region,
              message := "vulnerabilities",
              metadata := [("total_findings", .int total),
                           ("critical_count", .int critCount),
                           ("high_count", .int highCount)] }], none)

/-! ## internal/artifactregistry — the GCP Artifact Registry scanner -/

/-- artifactregistry.Repository. -/
structure ARRepository where
  name : String
  location : String
  repoID : String
  format : String
deriving DecidableEq

/-- artifactregistry.DockerImage.  `UploadTime` is a `time.Time` whose
`IsZero` case (no upload time supplied by the API) is modelled as `none`. -/
structure DockerImage where
  name : String
  uri : String
  tags : List String
  sizeBytes : Int
  uploadTime : Option Int
  mediaType : String
  repositoryID : String
deriving DecidableEq

/-- AR image identity: the URI, falling back to the full resource name when
the URI is empty. -/
def arImageID (img : DockerImage) : String :=
  if img.uri = "" then img.name else img.uri

/-- Per-image monthly cost on GCP: priced per the repository's location. -/
def arCost (repo : ARRepository) (img : DockerImage) : ℚ :=
  MonthlyStorageCost "artifactregistry" repo.location img.sizeBytes

/-- The human-readable resource name derived from the tag list. -/
def arResourceName (repo : ARRepository) (img : DockerImage) : String :=
  if img.tags.length > 0 then repo.repoID ++ ":" ++ joinComma img.tags else ""

/-- AR analyzeImage, untagged-image rule block. -/
def arUntaggedBlock (repo : ARRepository) (img : DockerImage) : List Finding :=
  if img.tags.length = 0 then
    [{ id := .untaggedImage, severity := .high, resourceType := .image,
       resourceID := arImageID img, region := repo.location,
       message := "Untagged image",
       estimatedMonthlyWaste := arCost repo img,
       metadata := [("size_bytes", .int img.sizeBytes), ("uri", .str img.uri)] }]
  else []

/-- AR analyzeImage, stale-image rule block: GCP has no pull timestamp, so
staleness is judged on the (non-zero) upload time, and the finding carries
an explanatory `note` metadata entry. -/
def arStaleBlock (now : Int) (cfg : ScanConfig)
    (repo : ARRepository) (img : DockerImage) : List Finding :=
  match img.uploadTime with
  | some uploadTime =>
    if cfg.staleDays > 0 then
      if uploadTime < addDays now (-cfg.staleDays) then
        [{ id := .staleImage, severity := .high, resourceType := .image,
           resourceID := arImageID img, resourceName := arResourceName repo img,
           region := repo.location,
           message := "Uploaded days ago, no pull data available",
           estimatedMonthlyWaste := arCost repo img,
           metadata := [("upload_time", .int uploadTime),
                        ("days_stale", .int ((now - uploadTime) / 86400)),
                        ("size_bytes", .int img.sizeBytes),
                        ("stale_days", .int cfg.staleDays),
                        ("note", .str "GCP AR has no pull timestamp; staleness based on upload time")] }]
      else []
    else []
  | none => []

/-- AR analyzeImage, large-image rule block. -/
def arLargeBlock (cfg : ScanConfig) (repo : ARRepository) (img : DockerImage) : List Finding :=
  if cfg.maxSizeBytes > 0 ∧ img.sizeBytes > cfg.maxSizeBytes then
    [{ id := .largeImage, severity := .medium, resourceType := .image,
       resourceID := arImageID img, resourceName := arResourceName repo img,
       region := repo.location,
       message := "Image exceeds threshold",
       estimatedMonthlyWaste := arCost repo img,
       metadata := [("size_bytes", .int img.sizeBytes),
                    ("threshold_bytes", .int cfg.maxSizeBytes)] }]
  else []

/-- AR analyzeImage, multi-arch-bloat rule block: unlike the ECR scanner,
the media type may contain either `"manifest.list"` or `"image.index"`. -/
def arMultiArchBlock (now : Int) (cfg : ScanConfig)
    (repo : ARRepository) (img : DockerImage) : List Finding :=
  if goContains img.mediaType "manifest.list" || goContains img.mediaType "image.index" then
    match img.uploadTime with
    | some uploadTime =>
      if cfg.staleDays > 0 then
        if uploadTime < addDays now (-cfg.staleDays) then
          [{ id := .multiArchBloat, severity := .low, resourceType := .image,
             resourceID := arImageID img, resourceName := arResourceName repo img,
             region := repo.location,
             message := "Stale multi-architecture image",
             estimatedMonthlyWaste := arCost repo img,
             metadata := [("size_bytes", .int img.sizeBytes),
                          ("media_type", .str img.mediaType)] }]
        else []
      else []
    | none => []
  else []

/-- artifactregistry.(*ARScanner).analyzeImage — per-image rule pass for
GCP.  No lifecycle or vulnerability rules exist for this provider; the four
rule blocks appear in source order. -/
def arAnalyzeImage (now : Int) (cfg : ScanConfig)
    (repo : ARRepository) (img : DockerImage) : List Finding :=
  arUntaggedBlock repo img ++
  arStaleBlock now cfg repo img ++
  arLargeBlock cfg repo img ++
  arMultiArchBlock now cfg repo img

/-- The UNUSED_REPO finding for an empty GCP repository. -/
def arEmptyRepoFinding (repo : ARRepository) : Finding :=
  { id := .unusedRepo, severity := .low, resourceType := .repository,
    resourceID := repo.repoID, region := repo.location,
    message := "Repository has no Docker images",
    estimatedMonthlyWaste := 0 }

/-- The repository-level UNUSED_REPO finding when every GCP image is stale. -/
def arAllStaleFinding (repo : ARRepository) (images : List DockerImage) : Finding :=
  { id := .unusedRepo, severity := .low, resourceType := .repository,
    resourceID := repo.repoID, region := repo.location,
    message := "All images are stale",
    estimatedMonthlyWaste :=
      (images.map (fun img =>
        MonthlyStorageCost "artifactregistry" repo.location img.sizeBytes)).sum,
    metadata := [("image_count", .int images.length)] }

/-- One repository as the AR scanner sees it: the listing record plus the
outcome of its `ListDockerImages` call. -/
structure ARRepoEnv where
  repo : ARRepository
  listDockerImages : Except String (List DockerImage)

/-- artifactregistry.(*ARScanner).scanRepository. -/
def arScanRepository (now : Int) (cfg : ScanConfig)
    (env : ARRepoEnv) (result : ScanResult) : ScanResult :=
  match env.listDockerImages with
  | .error e =>
    { result with
        errors := result.errors ++
          [env.repo.location ++ "/" ++ env.repo.repoID ++ ": " ++ e] }
  | .ok images =>
    if images.length = 0 then
      { result with findings := result.findings ++ [arEmptyRepoFinding env.repo] }
    else
      let loop := classifyImagesLoop (arAnalyzeImage now cfg env.repo) images (result, 0)
      if loop.2 = images.length ∧ images.length > 0 then
        { loop.1 with
            findings := loop.1.findings ++ [arAllStaleFinding env.repo images] }
      else loop.1

/-- One location of an AR scan: the location string plus the outcome of its
`ListRepositories` call. -/
structure ARLocationEnv where
  location : String
  listRepositories : Except String (List ARRepoEnv)

/-- artifactregistry.(*ARScanner).Scan — iterates the configured locations;
a listing failure for a location appends one error and moves on. -/
def arScan (now : Int) (cfg : ScanConfig) (locs : List ARLocationEnv) : ScanResult :=
  locs.foldl
    (fun result loc =>
      match loc.listRepositories with
      | .error e =>
        { result with errors := result.errors ++ [loc.location ++ ": " ++ e] }
      | .ok repos =>
        let result1 :=
          { result with repositoriesScanned := result.repositoriesScanned + repos.length }
        repos.foldl
          (fun r rep =>
            if cfg.excludeResourceIDs.contains rep.repo.repoID then r
            else arScanRepository now cfg rep r)
          result1)
    { findings := [], errors := [], resourcesScanned := 0, repositoriesScanned := 0 }

/-! ## internal/analyzer — filtering and summary statistics -/

/-- analyzer.AnalyzerConfig. -/
structure AnalyzerConfig where
  minMonthlyCost : ℚ
deriving DecidableEq

/-- analyzer.Summary.  The Go `map[string]int` histograms are association
lists built by per-finding increments. -/
structure Summary where
  totalResourcesScanned : Nat
  totalFindings : Nat
  totalMonthlyWaste : ℚ := 0
  bySeverity : List (String × Nat) := []
  byResourceType : List (String × Nat) := []
  repositoriesScanned : Nat
deriving DecidableEq

/-- analyzer.AnalysisResult. -/
structure AnalysisResult where
  findings : List Finding
  summary : Summary
  errors : List String
deriving DecidableEq

/-- Go `m[k]++` on a `map[string]int`. -/
def mapIncr : List (String × Nat) → String → List (String × Nat)
  | [], k => [(k, 1)]
  | (k', v) :: rest, k =>
    if k = k' then (k', v + 1) :: rest else (k', v) :: mapIncr rest k

/-- Indexing a Go `map[string]int`: a missing key yields 0. -/
def mapGetNat (m : List (String × Nat)) (k : String) : Nat :=
  (m.lookup k).getD 0

/-- analyzer.Analyze — filters findings by minimum cost (inclusive
boundary) and computes aggregated summary statistics over the filtered
set; errors pass through. -/
def Analyze (result : ScanResult) (cfg : AnalyzerConfig) : AnalysisResult :=
  let filtered :=
    result.findings.filter (fun f => cfg.minMonthlyCost ≤ f.estimatedMonthlyWaste)
  let summary0 : Summary :=
    { totalResourcesScanned := result.resourcesScanned,
      totalFindings := filtered.length,
      totalMonthlyWaste := 0,
      bySeverity := [], byResourceType := [],
      repositoriesScanned := result.repositoriesScanned }
  let summary :=
    filtered.foldl
      (fun s f =>
        { s with
            totalMonthlyWaste := s.totalMonthlyWaste + f.estimatedMonthlyWaste,
            bySeverity := mapIncr s.bySeverity (severityString f.severity),
            byResourceType := mapIncr s.byResourceType (resourceTypeString f.resourceType) })
      summary0
  { findings := filtered, summary := summary, errors := result.errors }

/-! ## Characterizing predicates used in the claim statements -/

/-- The stale condition of the ECR scanner, as the spec words it: a
positive `staleDays`, an existing last-activity instant (last pull,
falling back to push), and `now − lastActivity` strictly exceeding
`staleDays` days. -/
def ecrStaleHit (now : Int) (cfg : ScanConfig) (img : EcrImage) : Bool :=
  decide (0 < cfg.staleDays) &&
    match lastActivityTime img with
    | some lastActivity => decide (now - lastActivity > cfg.staleDays * 86400)
    | none => false

/-- The stale condition of the AR scanner: positive `staleDays`, a present
(non-zero) upload time, and `now − uploadTime` strictly exceeding
`staleDays` days. -/
def arStaleHit (now : Int) (cfg : ScanConfig) (img : DockerImage) : Bool :=
  decide (0 < cfg.staleDays) &&
    match img.uploadTime with
    | some uploadTime => decide (now - uploadTime > cfg.staleDays * 86400)
    | none => false

/-- The ECR scanner's multi-arch media-type test: a non-nil manifest media
type containing `"manifest.list"`. -/
def ecrMultiHit (img : EcrImage) : Bool :=
  match img.imageManifestMediaType with
  | some mediaType => goContains mediaType "manifest.list"
  | none => false

/-- The AR scanner's multi-arch media-type test: the media type contains
`"manifest.list"` or `"image.index"`. -/
def arMultiHit (img : DockerImage) : Bool :=
  goContains img.mediaType "manifest.list" || goContains img.mediaType "image.index"

/-- A STALE_IMAGE finding of severity high. -/
def isStaleHigh (f : Finding) : Bool :=
  hasID .staleImage f && decide (f.severity = .high)

/-- A MULTI_ARCH_BLOAT finding of severity low. -/
def isMultiLow (f : Finding) : Bool :=
  hasID .multiArchBloat f && decide (f.severity = .low)

/-- A finding whose ID must never appear in a GCP Artifact Registry scan
result: NO_LIFECYCLE_POLICY or VULNERABLE_IMAGE. -/
def isGcpForbidden (f : Finding) : Bool :=
  hasID .noLifecyclePolicy f || hasID .vulnerableImage f

/-- Did the image produce at least one STALE_IMAGE finding in the ECR
per-image pass? -/
def ecrImageFlaggedStale (now : Int) (region : String) (cfg : ScanConfig)
    (repoName : String) (img : EcrImage) : Bool :=
  (ecrAnalyzeImage now region cfg repoName img).any (hasID .staleImage)

/-- Did the image produce at least one STALE_IMAGE finding in the AR
per-image pass? -/
def arImageFlaggedStale (now : Int) (cfg : ScanConfig)
    (repo : ARRepository) (img : DockerImage) : Bool :=
  (arAnalyzeImage now cfg repo img).any (hasID .staleImage)

/-! ## Concrete inputs used by counterexamples and witnesses -/

/-- A scan configuration with a 90-day staleness threshold and a 1 GiB size
threshold (the defaults exercised by the repository's tests). -/
def cfg90 : ScanConfig := { staleDays := 90, maxSizeBytes := 1073741824 }

/-- A reference instant for concrete evaluations: day 1000. -/
def nowT : Int := 1000 * 86400

/-- A tagged image pushed 200 days before `nowT`, never pulled, whose
manifest media type is an OCI image index (a multi-platform manifest). -/
def ociIndexImage : EcrImage :=
  { imageDigest := some "sha256:aaa", imageTags := ["v1"],
    imageSizeInBytes := some 536870912,
    imagePushedAt := some (nowT - 200 * 86400),
    lastRecordedPullTime := none,
    imageManifestMediaType := some "application/vnd.oci.image.index.v1+json" }

/-- A tagged image pushed 200 days before `nowT`, never pulled, with no
manifest media type. -/
def staleImage200 : EcrImage :=
  { imageDigest := some "sha256:bbb", imageTags := ["v1"],
    imageSizeInBytes := some 536870912,
    imagePushedAt := some (nowT - 200 * 86400),
    lastRecordedPullTime := none,
    imageManifestMediaType := none }

/-- A second stale image, distinct digest. -/
def staleImage200b : EcrImage :=
  { staleImage200 with imageDigest := some "sha256:ccc" }

/-- An ECR repository environment whose two images are both stale. -/
def allStaleRepoEnv : EcrRepoEnv :=
  { repositoryName := some "old-repo",
    listImages := Except.ok [staleImage200, staleImage200b],
    hasLifecyclePolicy := Except.ok true }

/-- An ECR repository environment whose image listing fails. -/
def brokenListEnv : EcrRepoEnv :=
  { repositoryName := some "broken-repo",
    listImages := Except.error "throttled",
    hasLifecyclePolicy := Except.ok true }

/-- An ECR repository environment whose lifecycle-policy lookup fails but
whose single image lists fine. -/
def brokenLifecycleEnv : EcrRepoEnv :=
  { repositoryName := some "flaky-repo",
    listImages := Except.ok [staleImage200],
    hasLifecyclePolicy := Except.error "access denied" }

/-! # Theorems

General counting helpers, then the pricing oracle, then the scanners, then
the analyzer. -/

/-- If every finding of a list carries ID `j`, counting ID `i` yields the
whole length when `i = j` and zero otherwise. -/
theorem countP_hasID_of_ids {L : List Finding} {j : FindingID}
    (hL : ∀ f ∈ L, f.id = j) (i : FindingID) :
    L.countP (hasID i) = if i = j then L.length else 0 := by
  by_cases hij : i = j
  · subst hij
    rw [if_pos rfl, List.countP_eq_length]
    intro f hf
    simp [hasID, hL f hf]
  · rw [if_neg hij, List.countP_eq_zero]
    intro f hf
    simp only [hasID, decide_eq_true_eq]
    rw [hL f hf]
    exact fun hc => hij hc.symm

/-- Ditto for an ID-and-severity test when the IDs and severities of the
list are uniform. -/
theorem countP_idSev_of_ids {L : List Finding} {j : FindingID} {s : Severity}
    (hL : ∀ f ∈ L, f.id = j ∧ f.severity = s) (i : FindingID) (s' : Severity) :
    L.countP (fun f => hasID i f && decide (f.severity = s')) =
      if i = j ∧ s' = s then L.length else 0 := by
  by_cases hij : i = j ∧ s' = s
  · rw [if_pos hij, List.countP_eq_length]
    intro f hf
    simp [hasID, (hL f hf).1, (hL f hf).2, hij.1, hij.2]
  · rw [if_neg hij, List.countP_eq_zero]
    intro f hf
    simp only [hasID, Bool.and_eq_true, decide_eq_true_eq, not_and]
    intro h1 h2
    exact hij ⟨by rw [← (hL f hf).1, h1], ((hL f hf).2.symm.trans h2).symm⟩

/-! ## Pricing oracle -/

/-- A successful association-list lookup returns one of the stored values. -/
theorem lookup_mem_values {α : Type} (m : List (String × α)) (k : String) (v : α)
    (h : m.lookup k = some v) : ∃ k', (k', v) ∈ m := by
  induction m with
  | nil => simp [List.lookup] at h
  | cons e t ih =>
    rcases e with ⟨k', w⟩
    simp only [List.lookup] at h
    by_cases hk : (k == k') = true
    · rw [hk] at h
      have h' : some w = some v := h
      cases h'
      exact ⟨k', by simp⟩
    · rw [Bool.not_eq_true] at hk
      rw [hk] at h
      obtain ⟨k'', hm⟩ := ih h
      exact ⟨k'', List.mem_cons_of_mem _ hm⟩

/-- Looking a key up in an association list of non-negative rates yields a
non-negative rate. -/
theorem lookup_rat_nonneg (m : List (String × ℚ)) (hm : ∀ e ∈ m, 0 ≤ e.2)
    (k : String) (c : ℚ) (h : m.lookup k = some c) : 0 ≤ c := by
  obtain ⟨k', hk⟩ := lookup_mem_values m k c h
  exact hm (k', c) hk

/-- Every rate in the pricing table is non-negative. -/
theorem storageCosts_rates_nonneg :
    ∀ pce ∈ StorageCosts, ∀ e ∈ pce.2, 0 ≤ e.2 := by
  intro pce hp
  fin_cases hp <;> intro e he <;> fin_cases he <;> norm_num

/-- The per-GB rate is non-negative for every provider and region. -/
theorem lookupCostPerGB_nonneg (provider region : String) :
    0 ≤ lookupCostPerGB provider region := by
  cases hp : StorageCosts.lookup provider with
  | none =>
    simp only [lookupCostPerGB, hp]
    norm_num [mapGetRat, StorageCosts, List.lookup]
  | some pc =>
    have hpc : ∀ e ∈ pc, 0 ≤ e.2 := by
      obtain ⟨k', hmem⟩ := lookup_mem_values _ _ _ hp
      exact fun e he => storageCosts_rates_nonneg (k', pc) hmem e he
    cases hr : pc.lookup region with
    | some c => simpa [lookupCostPerGB, hp, hr] using lookup_rat_nonneg pc hpc region c hr
    | none =>
      simp only [lookupCostPerGB, hp, hr, mapGetRat]
      cases hd : pc.lookup "default" with
      | some c => simpa [hd] using lookup_rat_nonneg pc hpc "default" c hd
      | none => simp [hd]

/-- For a known provider whose table carries a `"default"` entry, the
code's lookup agrees with the spec-worded cascade. -/
theorem code_eq_cascade_of_provider (pc : List (String × ℚ)) (provider : String)
    (hp : StorageCosts.lookup provider = some pc) (d : ℚ)
    (hd : pc.lookup "default" = some d) (region : String) :
    lookupCostPerGB provider region = lookupCascadeSpec provider region := by
  simp only [lookupCostPerGB, lookupCascadeSpec, hp, Option.some_bind]
  cases hr : pc.lookup region with
  | some c => rfl
  | none => simp [mapGetRat, hd]

/-- The code's lookup agrees everywhere with the spec-worded cascade. -/
theorem lookupCostPerGB_eq_cascade (provider region : String) :
    lookupCostPerGB provider region = lookupCascadeSpec provider region := by
  by_cases h1 : provider = "ecr"
  · subst h1
    exact code_eq_cascade_of_provider ecrRates "ecr" rfl (1/10)
      (by simp [ecrRates, List.lookup]) region
  · by_cases h2 : provider = "artifactregistry"
    · subst h2
      exact code_eq_cascade_of_provider arRates "artifactregistry" rfl (1/10)
        (by simp [arRates, List.lookup]) region
    · have e1 : (provider == "ecr") = false := by
        simp only [beq_eq_false_iff_ne, ne_eq]
        exact h1
      have e2 : (provider == "artifactregistry") = false := by
        simp only [beq_eq_false_iff_ne, ne_eq]
        exact h2
      have hp : StorageCosts.lookup provider = none := by
        simp [StorageCosts, List.lookup, e1, e2]
      simp only [lookupCostPerGB, lookupCascadeSpec, hp, Option.none_bind]
      norm_num [mapGetRat, StorageCosts, List.lookup, ecrRates]

/-! ## ECR per-image rule blocks: identities and firing counts -/

/-- Every finding of the untagged block is an UNTAGGED_IMAGE of severity
high. -/
theorem ecrUntaggedBlock_ids (region repoName : String) (img : EcrImage) :
    ∀ f ∈ ecrUntaggedBlock region repoName img,
      f.id = .untaggedImage ∧ f.severity = .high := by
  intro f hf
  unfold ecrUntaggedBlock at hf
  split at hf
  · rw [List.mem_singleton] at hf
    subst hf
    exact ⟨rfl, rfl⟩
  · simp at hf

/-- Every finding of the stale block is a STALE_IMAGE of severity high. -/
theorem ecrStaleBlock_ids (now : Int) (region : String) (cfg : ScanConfig)
    (repoName : String) (img : EcrImage) :
    ∀ f ∈ ecrStaleBlock now region cfg repoName img,
      f.id = .staleImage ∧ f.severity = .high := by
  intro f hf
  unfold ecrStaleBlock at hf
  split at hf
  · split at hf
    · split at hf
      · rw [List.mem_singleton] at hf
        subst hf
        exact ⟨rfl, rfl⟩
      · simp at hf
    · simp at hf
  · simp at hf

/-- Every finding of the large block is a LARGE_IMAGE of severity medium. -/
theorem ecrLargeBlock_ids (region : String) (cfg : ScanConfig)
    (repoName : String) (img : EcrImage) :
    ∀ f ∈ ecrLargeBlock region cfg repoName img,
      f.id = .largeImage ∧ f.severity = .medium := by
  intro f hf
  unfold ecrLargeBlock at hf
  split at hf
  · rw [List.mem_singleton] at hf
    subst hf
    exact ⟨rfl, rfl⟩
  · simp at hf

/-- Every finding of the multi-arch block is a MULTI_ARCH_BLOAT of severity
low. -/
theorem ecrMultiArchBlock_ids (now : Int) (region : String) (cfg : ScanConfig)
    (repoName : String) (img : EcrImage) :
    ∀ f ∈ ecrMultiArchBlock now region cfg repoName img,
      f.id = .multiArchBloat ∧ f.severity = .low := by
  intro f hf
  unfold ecrMultiArchBlock at hf
  split at hf
  · split at hf
    · split at hf
      · split at hf
        · split at hf
          · rw [List.mem_singleton] at hf
            subst hf
            exact ⟨rfl, rfl⟩
          · simp at hf
        · simp at hf
      · simp at hf
    · simp at hf
  · simp at hf

/-- The stale block fires exactly when `ecrStaleHit` holds. -/
theorem ecrStaleBlock_length (now : Int) (region : String) (cfg : ScanConfig)
    (repoName : String) (img : EcrImage) :
    (ecrStaleBlock now region cfg repoName img).length =
      if ecrStaleHit now cfg img then 1 else 0 := by
  unfold ecrStaleBlock ecrStaleHit
  cases h : lastActivityTime img with
  | none => simp
  | some la =>
    by_cases hd : (0:Int) < cfg.staleDays
    · by_cases hlt : la < addDays now (-cfg.staleDays)
      · have hgt : now - la > cfg.staleDays * 86400 := by
          simp only [addDays] at hlt
          omega
        simp [hd, hlt, hgt]
      · have hgt : ¬ (now - la > cfg.staleDays * 86400) := by
          simp only [addDays] at hlt
          omega
        simp [hd, hlt, hgt]
    · simp [hd]

/-- The multi-arch block fires exactly when the media-type test and the
stale condition both hold. -/
theorem ecrMultiArchBlock_length (now : Int) (region : String) (cfg : ScanConfig)
    (repoName : String) (img : EcrImage) :
    (ecrMultiArchBlock now region cfg repoName img).length =
      if ecrMultiHit img && ecrStaleHit now cfg img then 1 else 0 := by
  unfold ecrMultiArchBlock ecrMultiHit ecrStaleHit
  cases hm : img.imageManifestMediaType with
  | none => simp
  | some mt =>
    by_cases hc : goContains mt "manifest.list"
    · cases h : lastActivityTime img with
      | none => simp [hc]
      | some la =>
        by_cases hd : (0:Int) < cfg.staleDays
        · by_cases hlt : la < addDays now (-cfg.staleDays)
          · have hgt : now - la > cfg.staleDays * 86400 := by
              simp only [addDays] at hlt
              omega
            simp [hc, hd, hlt, hgt]
          · have hgt : ¬ (now - la > cfg.staleDays * 86400) := by
              simp only [addDays] at hlt
              omega
            simp [hc, hd, hlt, hgt]
        · simp [hc, hd]
    · simp [hc]

/-- ecrAnalyzeImage emits exactly one STALE_IMAGE finding when
`ecrStaleHit` holds and none otherwise. -/
theorem ecrAnalyze_countP_stale (now : Int) (region : String) (cfg : ScanConfig)
    (repoName : String) (img : EcrImage) :
    (ecrAnalyzeImage now region cfg repoName img).countP (hasID .staleImage) =
      if ecrStaleHit now cfg img then 1 else 0 := by
  unfold ecrAnalyzeImage
  rw [List.countP_append, List.countP_append, List.countP_append,
      countP_hasID_of_ids (fun f hf => (ecrUntaggedBlock_ids region repoName img f hf).1),
      countP_hasID_of_ids (fun f hf => (ecrStaleBlock_ids now region cfg repoName img f hf).1),
      countP_hasID_of_ids (fun f hf => (ecrLargeBlock_ids region cfg repoName img f hf).1),
      countP_hasID_of_ids (fun f hf => (ecrMultiArchBlock_ids now region cfg repoName img f hf).1)]
  simp only [reduceCtorEq, if_false, if_pos rfl, Nat.zero_add, Nat.add_zero]
  exact ecrStaleBlock_length now region cfg repoName img

/-- ecrAnalyzeImage emits exactly one severity-high STALE_IMAGE finding
when `ecrStaleHit` holds and none otherwise. -/
theorem ecrAnalyze_countP_staleHigh (now : Int) (region : String) (cfg : ScanConfig)
    (repoName : String) (img : EcrImage) :
    (ecrAnalyzeImage now region cfg repoName img).countP isStaleHigh =
      if ecrStaleHit now cfg img then 1 else 0 := by
  unfold ecrAnalyzeImage isStaleHigh
  rw [List.countP_append, List.countP_append, List.countP_append,
      countP_idSev_of_ids (ecrUntaggedBlock_ids region repoName img),
      countP_idSev_of_ids (ecrStaleBlock_ids now region cfg repoName img),
      countP_idSev_of_ids (ecrLargeBlock_ids region cfg repoName img),
      countP_idSev_of_ids (ecrMultiArchBlock_ids now region cfg repoName img)]
  simp only [reduceCtorEq, false_and, and_false, if_false, and_self, if_true,
    Nat.zero_add, Nat.add_zero]
  exact ecrStaleBlock_length now region cfg repoName img

/-- ecrAnalyzeImage emits exactly one MULTI_ARCH_BLOAT finding when the
`"manifest.list"` media test and the stale condition both hold, and none
otherwise. -/
theorem ecrAnalyze_countP_multi (now : Int) (region : String) (cfg : ScanConfig)
    (repoName : String) (img : EcrImage) :
    (ecrAnalyzeImage now region cfg repoName img).countP (hasID .multiArchBloat) =
      if ecrMultiHit img && ecrStaleHit now cfg img then 1 else 0 := by
  unfold ecrAnalyzeImage
  rw [List.countP_append, List.countP_append, List.countP_append,
      countP_hasID_of_ids (fun f hf => (ecrUntaggedBlock_ids region repoName img f hf).1),
      countP_hasID_of_ids (fun f hf => (ecrStaleBlock_ids now region cfg repoName img f hf).1),
      countP_hasID_of_ids (fun f hf => (ecrLargeBlock_ids region cfg repoName img f hf).1),
      countP_hasID_of_ids (fun f hf => (ecrMultiArchBlock_ids now region cfg repoName img f hf).1)]
  simp only [reduceCtorEq, if_false, if_pos rfl, Nat.zero_add, Nat.add_zero]
  exact ecrMultiArchBlock_length now region cfg repoName img

/-- Ditto counting only severity-low MULTI_ARCH_BLOAT findings. -/
theorem ecrAnalyze_countP_multiLow (now : Int) (region : String) (cfg : ScanConfig)
    (repoName : String) (img : EcrImage) :
    (ecrAnalyzeImage now region cfg repoName img).countP isMultiLow =
      if ecrMultiHit img && ecrStaleHit now cfg img then 1 else 0 := by
  unfold ecrAnalyzeImage isMultiLow
  rw [List.countP_append, List.countP_append, List.countP_append,
      countP_idSev_of_ids (ecrUntaggedBlock_ids region repoName img),
      countP_idSev_of_ids (ecrStaleBlock_ids now region cfg repoName img),
      countP_idSev_of_ids (ecrLargeBlock_ids region cfg repoName img),
      countP_idSev_of_ids (ecrMultiArchBlock_ids now region cfg repoName img)]
  simp only [reduceCtorEq, false_and, and_false, if_false, and_self, if_true,
    Nat.zero_add, Nat.add_zero]
  exact ecrMultiArchBlock_length now region cfg repoName img

/-- ecrAnalyzeImage never emits an UNUSED_REPO finding. -/
theorem ecrAnalyze_countP_unused (now : Int) (region : String) (cfg : ScanConfig)
    (repoName : String) (img : EcrImage) :
    (ecrAnalyzeImage now region cfg repoName img).countP (hasID .unusedRepo) = 0 := by
  unfold ecrAnalyzeImage
  rw [List.countP_append, List.countP_append, List.countP_append,
      countP_hasID_of_ids (fun f hf => (ecrUntaggedBlock_ids region repoName img f hf).1),
      countP_hasID_of_ids (fun f hf => (ecrStaleBlock_ids now region cfg repoName img f hf).1),
      countP_hasID_of_ids (fun f hf => (ecrLargeBlock_ids region cfg repoName img f hf).1),
      countP_hasID_of_ids (fun f hf => (ecrMultiArchBlock_ids now region cfg repoName img f hf).1)]
  simp

/-- An image is flagged stale by the ECR pass exactly when `ecrStaleHit`
holds. -/
theorem ecrImageFlaggedStale_eq (now : Int) (region : String) (cfg : ScanConfig)
    (repoName : String) (img : EcrImage) :
    ecrImageFlaggedStale now region cfg repoName img = ecrStaleHit now cfg img := by
  have hc := ecrAnalyze_countP_stale now region cfg repoName img
  unfold ecrImageFlaggedStale
  cases hs : ecrStaleHit now cfg img <;> rw [hs] at hc <;> simp at hc
  · rw [List.any_eq_false]
    intro x hx
    simp [hc x hx]
  · rw [List.any_eq_true]
    exact List.countP_pos_iff.mp (by omega)

/-! ## AR per-image rule blocks: identities and firing counts -/

/-- Every finding of the AR untagged block is an UNTAGGED_IMAGE of severity
high. -/
theorem arUntaggedBlock_ids (repo : ARRepository) (img : DockerImage) :
    ∀ f ∈ arUntaggedBlock repo img,
      f.id = .untaggedImage ∧ f.severity = .high := by
  intro f hf
  unfold arUntaggedBlock at hf
  split at hf
  · rw [List.mem_singleton] at hf
    subst hf
    exact ⟨rfl, rfl⟩
  · simp at hf

/-- Every finding of the AR stale block is a STALE_IMAGE of severity high. -/
theorem arStaleBlock_ids (now : Int) (cfg : ScanConfig)
    (repo : ARRepository) (img : DockerImage) :
    ∀ f ∈ arStaleBlock now cfg repo img,
      f.id = .staleImage ∧ f.severity = .high := by
  intro f hf
  unfold arStaleBlock at hf
  split at hf
  · split at hf
    · split at hf
      · rw [List.mem_singleton] at hf
        subst hf
        exact ⟨rfl, rfl⟩
      · simp at hf
    · simp at hf
  · simp at hf

/-- Every finding of the AR large block is a LARGE_IMAGE of severity
medium. -/
theorem arLargeBlock_ids (cfg : ScanConfig) (repo : ARRepository) (img : DockerImage) :
    ∀ f ∈ arLargeBlock cfg repo img,
      f.id = .largeImage ∧ f.severity = .medium := by
  intro f hf
  unfold arLargeBlock at hf
  split at hf
  · rw [List.mem_singleton] at hf
    subst hf
    exact ⟨rfl, rfl⟩
  · simp at hf

/-- Every finding of the AR multi-arch block is a MULTI_ARCH_BLOAT of
severity low. -/
theorem arMultiArchBlock_ids (now : Int) (cfg : ScanConfig)
    (repo : ARRepository) (img : DockerImage) :
    ∀ f ∈ arMultiArchBlock now cfg repo img,
      f.id = .multiArchBloat ∧ f.severity = .low := by
  intro f hf
  unfold arMultiArchBlock at hf
  split at hf
  · split at hf
    · split at hf
      · split at hf
        · rw [List.mem_singleton] at hf
          subst hf
          exact ⟨rfl, rfl⟩
        · simp at hf
      · simp at hf
    · simp at hf
  · simp at hf

/-- The AR stale block fires exactly when `arStaleHit` holds. -/
theorem arStaleBlock_length (now : Int) (cfg : ScanConfig)
    (repo : ARRepository) (img : DockerImage) :
    (arStaleBlock now cfg repo img).length =
      if arStaleHit now cfg img then 1 else 0 := by
  unfold arStaleBlock arStaleHit
  cases h : img.uploadTime with
  | none => simp
  | some t =>
    by_cases hd : (0:Int) < cfg.staleDays
    · by_cases hlt : t < addDays now (-cfg.staleDays)
      · have hgt : now - t > cfg.staleDays * 86400 := by
          simp only [addDays] at hlt
          omega
        simp [hd, hlt, hgt]
      · have hgt : ¬ (now - t > cfg.staleDays * 86400) := by
          simp only [addDays] at hlt
          omega
        simp [hd, hlt, hgt]
    · simp [hd]

/-- The AR multi-arch block fires exactly when the media-type test and the
stale condition both hold. -/
theorem arMultiArchBlock_length (now : Int) (cfg : ScanConfig)
    (repo : ARRepository) (img : DockerImage) :
    (arMultiArchBlock now cfg repo img).length =
      if arMultiHit img && arStaleHit now cfg img then 1 else 0 := by
  unfold arMultiArchBlock arMultiHit arStaleHit
  by_cases hc : (goContains img.mediaType "manifest.list" ||
      goContains img.mediaType "image.index") = true
  · cases h : img.uploadTime with
    | none => simp [hc]
    | some t =>
      by_cases hd : (0:Int) < cfg.staleDays
      · by_cases hlt : t < addDays now (-cfg.staleDays)
        · have hgt : now - t > cfg.staleDays * 86400 := by
            simp only [addDays] at hlt
            omega
          simp [hc, hd, hlt, hgt]
        · have hgt : ¬ (now - t > cfg.staleDays * 86400) := by
            simp only [addDays] at hlt
            omega
          simp [hc, hd, hlt, hgt]
      · simp [hc, hd]
  · rw [Bool.not_eq_true] at hc
    simp [hc]

/-- arAnalyzeImage emits exactly one STALE_IMAGE finding when `arStaleHit`
holds and none otherwise. -/
theorem arAnalyze_countP_stale (now : Int) (cfg : ScanConfig)
    (repo : ARRepository) (img : DockerImage) :
    (arAnalyzeImage now cfg repo img).countP (hasID .staleImage) =
      if arStaleHit now cfg img then 1 else 0 := by
  unfold arAnalyzeImage
  rw [List.countP_append, List.countP_append, List.countP_append,
      countP_hasID_of_ids (fun f hf => (arUntaggedBlock_ids repo img f hf).1),
      countP_hasID_of_ids (fun f hf => (arStaleBlock_ids now cfg repo img f hf).1),
      countP_hasID_of_ids (fun f hf => (arLargeBlock_ids cfg repo img f hf).1),
      countP_hasID_of_ids (fun f hf => (arMultiArchBlock_ids now cfg repo img f hf).1)]
  simp only [reduceCtorEq, if_false, if_pos rfl, Nat.zero_add, Nat.add_zero]
  exact arStaleBlock_length now cfg repo img

/-- arAnalyzeImage emits exactly one severity-high STALE_IMAGE finding when
`arStaleHit` holds and none otherwise. -/
theorem arAnalyze_countP_staleHigh (now : Int) (cfg : ScanConfig)
    (repo : ARRepository) (img : DockerImage) :
    (arAnalyzeImage now cfg repo img).countP isStaleHigh =
      if arStaleHit now cfg img then 1 else 0 := by
  unfold arAnalyzeImage isStaleHigh
  rw [List.countP_append, List.countP_append, List.countP_append,
      countP_idSev_of_ids (arUntaggedBlock_ids repo img),
      countP_idSev_of_ids (arStaleBlock_ids now cfg repo img),
      countP_idSev_of_ids (arLargeBlock_ids cfg repo img),
      countP_idSev_of_ids (arMultiArchBlock_ids now cfg repo img)]
  simp only [reduceCtorEq, false_and, and_false, if_false, and_self, if_true,
    Nat.zero_add, Nat.add_zero]
  exact arStaleBlock_length now cfg repo img

/-- arAnalyzeImage emits exactly one MULTI_ARCH_BLOAT finding when the AR
media-type test (manifest list or image index) and the stale condition both
hold, and none otherwise. -/
theorem arAnalyze_countP_multi (now : Int) (cfg : ScanConfig)
    (repo : ARRepository) (img : DockerImage) :
    (arAnalyzeImage now cfg repo img).countP (hasID .multiArchBloat) =
      if arMultiHit img && arStaleHit now cfg img then 1 else 0 := by
  unfold arAnalyzeImage
  rw [List.countP_append, List.countP_append, List.countP_append,
      countP_hasID_of_ids (fun f hf => (arUntaggedBlock_ids repo img f hf).1),
      countP_hasID_of_ids (fun f hf => (arStaleBlock_ids now cfg repo img f hf).1),
      countP_hasID_of_ids (fun f hf => (arLargeBlock_ids cfg repo img f hf).1),
      countP_hasID_of_ids (fun f hf => (arMultiArchBlock_ids now cfg repo img f hf).1)]
  simp only [reduceCtorEq, if_false, if_pos rfl, Nat.zero_add, Nat.add_zero]
  exact arMultiArchBlock_length now cfg repo img

/-- Ditto counting only severity-low MULTI_ARCH_BLOAT findings. -/
theorem arAnalyze_countP_multiLow (now : Int) (cfg : ScanConfig)
    (repo : ARRepository) (img : DockerImage) :
    (arAnalyzeImage now cfg repo img).countP isMultiLow =
      if arMultiHit img && arStaleHit now cfg img then 1 else 0 := by
  unfold arAnalyzeImage isMultiLow
  rw [List.countP_append, List.countP_append, List.countP_append,
      countP_idSev_of_ids (arUntaggedBlock_ids repo img),
      countP_idSev_of_ids (arStaleBlock_ids now cfg repo img),
      countP_idSev_of_ids (arLargeBlock_ids cfg repo img),
      countP_idSev_of_ids (arMultiArchBlock_ids now cfg repo img)]
  simp only [reduceCtorEq, false_and, and_false, if_false, and_self, if_true,
    Nat.zero_add, Nat.add_zero]
  exact arMultiArchBlock_length now cfg repo img

/-- arAnalyzeImage never emits an UNUSED_REPO finding. -/
theorem arAnalyze_countP_unused (now : Int) (cfg : ScanConfig)
    (repo : ARRepository) (img : DockerImage) :
    (arAnalyzeImage now cfg repo img).countP (hasID .unusedRepo) = 0 := by
  unfold arAnalyzeImage
  rw [List.countP_append, List.countP_append, List.countP_append,
      countP_hasID_of_ids (fun f hf => (arUntaggedBlock_ids repo img f hf).1),
      countP_hasID_of_ids (fun f hf => (arStaleBlock_ids now cfg repo img f hf).1),
      countP_hasID_of_ids (fun f hf => (arLargeBlock_ids cfg repo img f hf).1),
      countP_hasID_of_ids (fun f hf => (arMultiArchBlock_ids now cfg repo img f hf).1)]
  simp

/-- A uniformly-identified finding list with an ID other than
NO_LIFECYCLE_POLICY and VULNERABLE_IMAGE has no GCP-forbidden findings. -/
theorem countP_gcpForbidden_of_ids {L : List Finding} {j : FindingID}
    (hL : ∀ f ∈ L, f.id = j)
    (h1 : j ≠ .noLifecyclePolicy) (h2 : j ≠ .vulnerableImage) :
    L.countP isGcpForbidden = 0 := by
  rw [List.countP_eq_zero]
  intro f hf
  simp only [isGcpForbidden, hasID, Bool.or_eq_true, decide_eq_true_eq, not_or]
  exact ⟨by rw [hL f hf]; exact h1, by rw [hL f hf]; exact h2⟩

/-- arAnalyzeImage never emits NO_LIFECYCLE_POLICY or VULNERABLE_IMAGE. -/
theorem arAnalyze_countP_forbidden (now : Int) (cfg : ScanConfig)
    (repo : ARRepository) (img : DockerImage) :
    (arAnalyzeImage now cfg repo img).countP isGcpForbidden = 0 := by
  unfold arAnalyzeImage
  rw [List.countP_append, List.countP_append, List.countP_append,
      countP_gcpForbidden_of_ids (fun f hf => (arUntaggedBlock_ids repo img f hf).1)
        (by simp) (by simp),
      countP_gcpForbidden_of_ids (fun f hf => (arStaleBlock_ids now cfg repo img f hf).1)
        (by simp) (by simp),
      countP_gcpForbidden_of_ids (fun f hf => (arLargeBlock_ids cfg repo img f hf).1)
        (by simp) (by simp),
      countP_gcpForbidden_of_ids (fun f hf => (arMultiArchBlock_ids now cfg repo img f hf).1)
        (by simp) (by simp)]

/-- An image is flagged stale by the AR pass exactly when `arStaleHit`
holds. -/
theorem arImageFlaggedStale_eq (now : Int) (cfg : ScanConfig)
    (repo : ARRepository) (img : DockerImage) :
    arImageFlaggedStale now cfg repo img = arStaleHit now cfg img := by
  have hc := arAnalyze_countP_stale now cfg repo img
  unfold arImageFlaggedStale
  cases hs : arStaleHit now cfg img <;> rw [hs] at hc <;> simp at hc
  · rw [List.any_eq_false]
    intro x hx
    simp [hc x hx]
  · rw [List.any_eq_true]
    exact List.countP_pos_iff.mp (by omega)

/-! ## The shared image loop and the per-repository scans -/

/-- Closed form of the shared per-image loop: it adds the image count to
ResourcesScanned, appends the concatenated per-image findings, and adds the
per-image STALE_IMAGE counts. -/
theorem classifyImagesLoop_spec {α : Type} (analyze : α → List Finding)
    (images : List α) (r : ScanResult) (c : Nat) :
    classifyImagesLoop analyze images (r, c) =
      ({ r with
          resourcesScanned := r.resourcesScanned + images.length,
          findings := r.findings ++ images.flatMap analyze },
       c + (images.map (fun img => (analyze img).countP (hasID .staleImage))).sum) := by
  induction images generalizing r c with
  | nil => simp [classifyImagesLoop]
  | cons img rest ih =>
    simp only [classifyImagesLoop, List.foldl_cons] at ih ⊢
    rw [ih]
    simp only [Prod.mk.injEq, ScanResult.mk.injEq, List.flatMap_cons, List.length_cons,
      List.map_cons, List.sum_cons, List.append_assoc, and_true, true_and]
    omega

/-- The error branch of ecr.scanRepository: a failed image listing appends
exactly one error string and changes nothing else. -/
theorem ecrScanRepository_listErr (now : Int) (region : String) (cfg : ScanConfig)
    (repo : EcrRepoEnv) (r : ScanResult) (e : String)
    (he : repo.listImages = Except.error e) :
    ecrScanRepository now region cfg repo r =
      { r with errors :=
          r.errors ++ [region ++ "/" ++ deref repo.repositoryName ++ ": " ++ e] } := by
  unfold ecrScanRepository
  rw [he]

/-- The non-empty success branch of ecr.scanRepository in closed form. -/
theorem ecrScanRepository_ok (now : Int) (region : String) (cfg : ScanConfig)
    (repo : EcrRepoEnv) (images : List EcrImage) (r : ScanResult)
    (hok : repo.listImages = Except.ok images) (hne : images ≠ []) :
    ecrScanRepository now region cfg repo r =
      (let repoName := deref repo.repositoryName
       let r1 :=
         match repo.hasLifecyclePolicy with
         | .error e =>
           { r with errors := r.errors ++ [region ++ "/" ++ repoName ++ " lifecycle: " ++ e] }
         | .ok hasPolicy =>
           if !hasPolicy then
             { r with findings := r.findings ++ [ecrNoLifecycleFinding region repoName] }
           else r
       let r2 :=
         { r1 with
             resourcesScanned := r1.resourcesScanned + images.length,
             findings := r1.findings ++ images.flatMap (ecrAnalyzeImage now region cfg repoName) }
       if (images.map (fun img =>
            (ecrAnalyzeImage now region cfg repoName img).countP (hasID .staleImage))).sum
          = images.length then
         { r2 with findings := r2.findings ++ [ecrAllStaleFinding region repoName images] }
       else r2) := by
  have hlen : ¬ (images.length = 0) := by simpa using hne
  have hpos : images.length > 0 := Nat.pos_of_ne_zero (by simpa using hne)
  unfold ecrScanRepository
  rw [hok]
  simp only [if_neg hlen, classifyImagesLoop_spec, Nat.zero_add]
  by_cases hs : (images.map (fun img =>
      (ecrAnalyzeImage now region cfg (deref repo.repositoryName) img).countP
        (hasID .staleImage))).sum = images.length
  · rw [if_pos ⟨hs, hpos⟩, if_pos hs]
  · rw [if_neg (fun hc => hs hc.1), if_neg hs]

/-- The error branch of ar.scanRepository: a failed image listing appends
exactly one error string and changes nothing else. -/
theorem arScanRepository_listErr (now : Int) (cfg : ScanConfig)
    (env : ARRepoEnv) (r : ScanResult) (e : String)
    (he : env.listDockerImages = Except.error e) :
    arScanRepository now cfg env r =
      { r with errors :=
          r.errors ++ [env.repo.location ++ "/" ++ env.repo.repoID ++ ": " ++ e] } := by
  unfold arScanRepository
  rw [he]

/-- The non-empty success branch of ar.scanRepository in closed form. -/
theorem arScanRepository_ok (now : Int) (cfg : ScanConfig)
    (env : ARRepoEnv) (images : List DockerImage) (r : ScanResult)
    (hok : env.listDockerImages = Except.ok images) (hne : images ≠ []) :
    arScanRepository now cfg env r =
      (let r2 :=
         { r with
             resourcesScanned := r.resourcesScanned + images.length,
             findings := r.findings ++ images.flatMap (arAnalyzeImage now cfg env.repo) }
       if (images.map (fun img =>
            (arAnalyzeImage now cfg env.repo img).countP (hasID .staleImage))).sum
          = images.length then
         { r2 with findings := r2.findings ++ [arAllStaleFinding env.repo images] }
       else r2) := by
  have hlen : ¬ (images.length = 0) := by simpa using hne
  have hpos : images.length > 0 := Nat.pos_of_ne_zero (by simpa using hne)
  unfold arScanRepository
  rw [hok]
  simp only [if_neg hlen, classifyImagesLoop_spec, Nat.zero_add]
  by_cases hs : (images.map (fun img =>
      (arAnalyzeImage now cfg env.repo img).countP (hasID .staleImage))).sum = images.length
  · rw [if_pos ⟨hs, hpos⟩, if_pos hs]
  · rw [if_neg (fun hc => hs hc.1), if_neg hs]

/-- ecr.scanRepository only appends findings and errors and adds to
ResourcesScanned: its effect on an arbitrary accumulator is the effect on
the empty accumulator, shifted. -/
theorem ecrScanRepository_shift (now : Int) (region : String) (cfg : ScanConfig)
    (repo : EcrRepoEnv) (r : ScanResult) :
    ecrScanRepository now region cfg repo r =
      { findings := r.findings ++ (ecrScanRepository now region cfg repo {}).findings,
        errors := r.errors ++ (ecrScanRepository now region cfg repo {}).errors,
        resourcesScanned :=
          r.resourcesScanned + (ecrScanRepository now region cfg repo {}).resourcesScanned,
        repositoriesScanned := r.repositoriesScanned } := by
  cases he : repo.listImages with
  | error e =>
    rw [ecrScanRepository_listErr now region cfg repo r e he,
        ecrScanRepository_listErr now region cfg repo {} e he]
    simp
  | ok images =>
    by_cases hne : images = []
    · subst hne
      unfold ecrScanRepository
      rw [he]
      simp
    · rw [ecrScanRepository_ok now region cfg repo images r he hne,
          ecrScanRepository_ok now region cfg repo images {} he hne]
      cases hp : repo.hasLifecyclePolicy with
      | error e =>
        simp only []
        split <;> simp
      | ok hasPolicy =>
        cases hasPolicy <;> simp only [] <;> split <;> simp

/-- ecr.scanRepository never touches RepositoriesScanned, and commutes with
overwriting it. -/
theorem ecrScanRepository_set_repScanned (now : Int) (region : String)
    (cfg : ScanConfig) (repo : EcrRepoEnv) (r : ScanResult) (k : Nat) :
    ecrScanRepository now region cfg repo { r with repositoriesScanned := k } =
      { ecrScanRepository now region cfg repo r with repositoriesScanned := k } := by
  rw [ecrScanRepository_shift now region cfg repo { r with repositoriesScanned := k },
      ecrScanRepository_shift now region cfg repo r]

/-- ar.scanRepository, same shift property. -/
theorem arScanRepository_shift (now : Int) (cfg : ScanConfig)
    (env : ARRepoEnv) (r : ScanResult) :
    arScanRepository now cfg env r =
      { findings := r.findings ++ (arScanRepository now cfg env {}).findings,
        errors := r.errors ++ (arScanRepository now cfg env {}).errors,
        resourcesScanned :=
          r.resourcesScanned + (arScanRepository now cfg env {}).resourcesScanned,
        repositoriesScanned := r.repositoriesScanned } := by
  cases he : env.listDockerImages with
  | error e =>
    rw [arScanRepository_listErr now cfg env r e he,
        arScanRepository_listErr now cfg env {} e he]
    simp
  | ok images =>
    by_cases hne : images = []
    · subst hne
      unfold arScanRepository
      rw [he]
      simp
    · rw [arScanRepository_ok now cfg env images r he hne,
          arScanRepository_ok now cfg env images {} he hne]
      simp only []
      split <;> simp

/-- ar.scanRepository never touches RepositoriesScanned. -/
theorem arScanRepository_set_repScanned (now : Int) (cfg : ScanConfig)
    (env : ARRepoEnv) (r : ScanResult) (k : Nat) :
    arScanRepository now cfg env { r with repositoriesScanned := k } =
      { arScanRepository now cfg env r with repositoriesScanned := k } := by
  rw [arScanRepository_shift now cfg env { r with repositoriesScanned := k },
      arScanRepository_shift now cfg env r]

/-- A fold preserves any invariant its step preserves. -/
theorem foldl_preserves {β α : Type} (f : β → α → β) (P : β → Prop)
    (l : List α) (init : β) (h : ∀ b a, P b → P (f b a)) (hi : P init) :
    P (l.foldl f init) := by
  induction l generalizing init with
  | nil => exact hi
  | cons a t ih => exact ih (f init a) (h init a hi)

/-- The ECR repository loop skips exactly the excluded repositories: it is
the plain loop over the non-excluded sublist. -/
theorem ecrRepoFold_filter (now : Int) (region : String) (cfg : ScanConfig)
    (repos : List EcrRepoEnv) (init : ScanResult) :
    repos.foldl
        (fun r repo =>
          if cfg.excludeResourceIDs.contains (deref repo.repositoryName) then r
          else ecrScanRepository now region cfg repo r) init =
      (repos.filter
          (fun repo => !(cfg.excludeResourceIDs.contains (deref repo.repositoryName)))).foldl
        (fun r repo =>
          if cfg.excludeResourceIDs.contains (deref repo.repositoryName) then r
          else ecrScanRepository now region cfg repo r) init := by
  induction repos generalizing init with
  | nil => rfl
  | cons repo rest ih =>
    by_cases hex : cfg.excludeResourceIDs.contains (deref repo.repositoryName)
    · rw [List.foldl_cons, if_pos hex, List.filter_cons_of_neg (by rw [hex]; simp)]
      exact ih init
    · have hexf : cfg.excludeResourceIDs.contains (deref repo.repositoryName) = false := by
        rw [Bool.not_eq_true] at hex
        exact hex
      rw [List.foldl_cons, if_neg hex, List.filter_cons_of_pos (by rw [hexf]; rfl),
          List.foldl_cons, if_neg hex]
      exact ih (ecrScanRepository now region cfg repo init)

/-- The ECR repository loop commutes with overwriting RepositoriesScanned
in its accumulator. -/
theorem ecrRepoFold_set_repScanned (now : Int) (region : String) (cfg : ScanConfig)
    (repos : List EcrRepoEnv) (r : ScanResult) (k : Nat) :
    repos.foldl
        (fun r repo =>
          if cfg.excludeResourceIDs.contains (deref repo.repositoryName) then r
          else ecrScanRepository now region cfg repo r)
        { r with repositoriesScanned := k } =
      { repos.foldl
          (fun r repo =>
            if cfg.excludeResourceIDs.contains (deref repo.repositoryName) then r
            else ecrScanRepository now region cfg repo r) r
        with repositoriesScanned := k } := by
  induction repos generalizing r with
  | nil => rfl
  | cons repo rest ih =>
    rw [List.foldl_cons, List.foldl_cons]
    by_cases hex : cfg.excludeResourceIDs.contains (deref repo.repositoryName)
    · rw [if_pos hex, if_pos hex]
      exact ih r
    · rw [if_neg hex, if_neg hex, ecrScanRepository_set_repScanned]
      exact ih (ecrScanRepository now region cfg repo r)

/-- The AR repository loop, same skip property. -/
theorem arRepoFold_filter (now : Int) (cfg : ScanConfig)
    (repos : List ARRepoEnv) (init : ScanResult) :
    repos.foldl
        (fun r rep =>
          if cfg.excludeResourceIDs.contains rep.repo.repoID then r
          else arScanRepository now cfg rep r) init =
      (repos.filter
          (fun rep => !(cfg.excludeResourceIDs.contains rep.repo.repoID))).foldl
        (fun r rep =>
          if cfg.excludeResourceIDs.contains rep.repo.repoID then r
          else arScanRepository now cfg rep r) init := by
  induction repos generalizing init with
  | nil => rfl
  | cons rep rest ih =>
    by_cases hex : cfg.excludeResourceIDs.contains rep.repo.repoID
    · rw [List.foldl_cons, if_pos hex, List.filter_cons_of_neg (by rw [hex]; simp)]
      exact ih init
    · have hexf : cfg.excludeResourceIDs.contains rep.repo.repoID = false := by
        rw [Bool.not_eq_true] at hex
        exact hex
      rw [List.foldl_cons, if_neg hex, List.filter_cons_of_pos (by rw [hexf]; rfl),
          List.foldl_cons, if_neg hex]
      exact ih (arScanRepository now cfg rep init)

/-- The AR repository loop commutes with overwriting RepositoriesScanned. -/
theorem arRepoFold_set_repScanned (now : Int) (cfg : ScanConfig)
    (repos : List ARRepoEnv) (r : ScanResult) (k : Nat) :
    repos.foldl
        (fun r rep =>
          if cfg.excludeResourceIDs.contains rep.repo.repoID then r
          else arScanRepository now cfg rep r)
        { r with repositoriesScanned := k } =
      { repos.foldl
          (fun r rep =>
            if cfg.excludeResourceIDs.contains rep.repo.repoID then r
            else arScanRepository now cfg rep r) r
        with repositoriesScanned := k } := by
  induction repos generalizing r with
  | nil => rfl
  | cons rep rest ih =>
    rw [List.foldl_cons, List.foldl_cons]
    by_cases hex : cfg.excludeResourceIDs.contains rep.repo.repoID
    · rw [if_pos hex, if_pos hex]
      exact ih r
    · rw [if_neg hex, if_neg hex, arScanRepository_set_repScanned]
      exact ih (arScanRepository now cfg rep r)

/-- Counting over a concatenation of per-image findings sums per-image
counts. -/
theorem countP_flatMap {α : Type} (f : α → List Finding) (p : Finding → Bool)
    (l : List α) :
    (l.flatMap f).countP p = (l.map (fun x => (f x).countP p)).sum := by
  induction l with
  | nil => rfl
  | cons x t ih => simp [List.flatMap_cons, List.countP_append, ih]

/-- The per-image STALE_IMAGE counts of an ECR repository sum to the image
count exactly when every image is flagged stale. -/
theorem ecrStaleSum_eq_length_iff (now : Int) (region : String) (cfg : ScanConfig)
    (repoName : String) (images : List EcrImage) :
    ((images.map (fun img =>
        (ecrAnalyzeImage now region cfg repoName img).countP (hasID .staleImage))).sum
      = images.length)
    ↔ images.all (fun img => ecrImageFlaggedStale now region cfg repoName img) = true := by
  induction images with
  | nil => simp
  | cons img rest ih =>
    simp only [List.map_cons, List.sum_cons, List.length_cons, List.all_cons,
      Bool.and_eq_true]
    rw [ecrAnalyze_countP_stale, ← ih, ecrImageFlaggedStale_eq]
    have hb : (rest.map (fun img =>
        (ecrAnalyzeImage now region cfg repoName img).countP (hasID .staleImage))).sum
        ≤ rest.length := by
      clear ih
      induction rest with
      | nil => simp
      | cons i t iht =>
        simp only [List.map_cons, List.sum_cons, List.length_cons]
        rw [ecrAnalyze_countP_stale]
        split <;> omega
    cases hs : ecrStaleHit now cfg img <;> simp <;> omega

/-- The per-image STALE_IMAGE counts of an AR repository sum to the image
count exactly when every image is flagged stale. -/
theorem arStaleSum_eq_length_iff (now : Int) (cfg : ScanConfig)
    (repo : ARRepository) (images : List DockerImage) :
    ((images.map (fun img =>
        (arAnalyzeImage now cfg repo img).countP (hasID .staleImage))).sum
      = images.length)
    ↔ images.all (arImageFlaggedStale now cfg repo) = true := by
  induction images with
  | nil => simp
  | cons img rest ih =>
    simp only [List.map_cons, List.sum_cons, List.length_cons, List.all_cons,
      Bool.and_eq_true]
    rw [arAnalyze_countP_stale, ← ih, arImageFlaggedStale_eq]
    have hb : (rest.map (fun img =>
        (arAnalyzeImage now cfg repo img).countP (hasID .staleImage))).sum
        ≤ rest.length := by
      clear ih
      induction rest with
      | nil => simp
      | cons i t iht =>
        simp only [List.map_cons, List.sum_cons, List.length_cons]
        rw [arAnalyze_countP_stale]
        split <;> omega
    cases hs : arStaleHit now cfg img <;> simp <;> omega

/-! ## Analyzer helpers -/

/-- Reading a key back after a Go-map increment. -/
theorem mapGetNat_mapIncr (m : List (String × Nat)) (k k' : String) :
    mapGetNat (mapIncr m k) k' = mapGetNat m k' + if k' = k then 1 else 0 := by
  induction m with
  | nil =>
    by_cases h : k' = k
    · subst h
      simp [mapIncr, mapGetNat, List.lookup]
    · have hb : (k' == k) = false := by
        simp only [beq_eq_false_iff_ne, ne_eq]
        exact h
      simp [mapIncr, mapGetNat, List.lookup, hb, h]
  | cons e t ih =>
    rcases e with ⟨k0, v⟩
    simp only [mapIncr]
    by_cases h0 : k = k0
    · subst h0
      rw [if_pos rfl]
      by_cases h1 : k' = k
      · subst h1
        simp [mapGetNat, List.lookup]
      · have hb : (k' == k) = false := by
          simp only [beq_eq_false_iff_ne, ne_eq]
          exact h1
        simp [mapGetNat, List.lookup, hb, h1]
    · rw [if_neg h0]
      by_cases h1 : k' = k0
      · subst h1
        have h2 : ¬ (k' = k) := fun hh => h0 hh.symm
        simp [mapGetNat, List.lookup, h2]
      · simp only [mapGetNat, List.lookup] at ih ⊢
        have hb : (k' == k0) = false := by
          simp only [beq_eq_false_iff_ne, ne_eq]
          exact h1
        rw [hb]
        exact ih

/-- Closed form of the Analyzer's summary loop. -/
theorem analyzeSummaryFold (l : List Finding) (s : Summary) :
    (l.foldl
        (fun s f =>
          { s with
              totalMonthlyWaste := s.totalMonthlyWaste + f.estimatedMonthlyWaste,
              bySeverity := mapIncr s.bySeverity (severityString f.severity),
              byResourceType :=
                mapIncr s.byResourceType (resourceTypeString f.resourceType) }) s).totalMonthlyWaste
      = s.totalMonthlyWaste + (l.map (fun f => f.estimatedMonthlyWaste)).sum
    ∧ (∀ k, mapGetNat
        (l.foldl
          (fun s f =>
            { s with
                totalMonthlyWaste := s.totalMonthlyWaste + f.estimatedMonthlyWaste,
                bySeverity := mapIncr s.bySeverity (severityString f.severity),
                byResourceType :=
                  mapIncr s.byResourceType (resourceTypeString f.resourceType) }) s).bySeverity k
        = mapGetNat s.bySeverity k + l.countP (fun f => severityString f.severity == k))
    ∧ (∀ k, mapGetNat
        (l.foldl
          (fun s f =>
            { s with
                totalMonthlyWaste := s.totalMonthlyWaste + f.estimatedMonthlyWaste,
                bySeverity := mapIncr s.bySeverity (severityString f.severity),
                byResourceType :=
                  mapIncr s.byResourceType (resourceTypeString f.resourceType) }) s).byResourceType k
        = mapGetNat s.byResourceType k + l.countP (fun f => resourceTypeString f.resourceType == k))
    ∧ (l.foldl
        (fun s f =>
          { s with
              totalMonthlyWaste := s.totalMonthlyWaste + f.estimatedMonthlyWaste,
              bySeverity := mapIncr s.bySeverity (severityString f.severity),
              byResourceType :=
                mapIncr s.byResourceType (resourceTypeString f.resourceType) }) s).totalResourcesScanned
      = s.totalResourcesScanned
    ∧ (l.foldl
        (fun s f =>
          { s with
              totalMonthlyWaste := s.totalMonthlyWaste + f.estimatedMonthlyWaste,
              bySeverity := mapIncr s.bySeverity (severityString f.severity),
              byResourceType :=
                mapIncr s.byResourceType (resourceTypeString f.resourceType) }) s).totalFindings
      = s.totalFindings
    ∧ (l.foldl
        (fun s f =>
          { s with
              totalMonthlyWaste := s.totalMonthlyWaste + f.estimatedMonthlyWaste,
              bySeverity := mapIncr s.bySeverity (severityString f.severity),
              byResourceType :=
                mapIncr s.byResourceType (resourceTypeString f.resourceType) }) s).repositoriesScanned
      = s.repositoriesScanned := by
  induction l generalizing s with
  | nil => simp
  | cons f rest ih =>
    simp only [List.foldl_cons, List.map_cons, List.sum_cons, List.countP_cons]
    obtain ⟨ihW, ihS, ihR, ih4, ih5, ih6⟩ := ih
      { s with
          totalMonthlyWaste := s.totalMonthlyWaste + f.estimatedMonthlyWaste,
          bySeverity := mapIncr s.bySeverity (severityString f.severity),
          byResourceType := mapIncr s.byResourceType (resourceTypeString f.resourceType) }
    refine ⟨?_, ?_, ?_, ?_, ?_, ?_⟩
    · rw [ihW]
      simp [add_assoc]
    · intro k
      rw [ihS k]
      simp only [mapGetNat_mapIncr]
      by_cases hk : severityString f.severity = k
      · simp [hk]
        omega
      · have hk2 : ¬ (k = severityString f.severity) := fun hh => hk hh.symm
        simp [hk, hk2]
    · intro k
      rw [ihR k]
      simp only [mapGetNat_mapIncr]
      by_cases hk : resourceTypeString f.resourceType = k
      · simp [hk]
        omega
      · have hk2 : ¬ (k = resourceTypeString f.resourceType) := fun hh => hk hh.symm
        simp [hk, hk2]
    · rw [ih4]
    · rw [ih5]
    · rw [ih6]

/-- Summing a constant-zero image map. -/
theorem sum_map_zero {α : Type} (l : List α) : (l.map (fun _ => (0:Nat))).sum = 0 := by
  induction l with
  | nil => rfl
  | cons x t ih => simp [ih]

/-- The ECR repository loop only appends findings and errors and adds to
ResourcesScanned; RepositoriesScanned is left untouched. -/
theorem ecrRepoFold_shift (now : Int) (region : String) (cfg : ScanConfig)
    (repos : List EcrRepoEnv) (r : ScanResult) :
    repos.foldl
        (fun r repo =>
          if cfg.excludeResourceIDs.contains (deref repo.repositoryName) then r
          else ecrScanRepository now region cfg repo r) r =
      { findings := r.findings ++
          (repos.foldl
            (fun r repo =>
              if cfg.excludeResourceIDs.contains (deref repo.repositoryName) then r
              else ecrScanRepository now region cfg repo r) {}).findings,
        errors := r.errors ++
          (repos.foldl
            (fun r repo =>
              if cfg.excludeResourceIDs.contains (deref repo.repositoryName) then r
              else ecrScanRepository now region cfg repo r) {}).errors,
        resourcesScanned := r.resourcesScanned +
          (repos.foldl
            (fun r repo =>
              if cfg.excludeResourceIDs.contains (deref repo.repositoryName) then r
              else ecrScanRepository now region cfg repo r) {}).resourcesScanned,
        repositoriesScanned := r.repositoriesScanned } := by
  induction repos generalizing r with
  | nil => simp
  | cons repo rest ih =>
    rw [List.foldl_cons, List.foldl_cons]
    by_cases hex : cfg.excludeResourceIDs.contains (deref repo.repositoryName)
    · rw [if_pos hex, if_pos hex]
      exact ih r
    · rw [if_neg hex, if_neg hex, ih (ecrScanRepository now region cfg repo r),
          ih (ecrScanRepository now region cfg repo {}),
          ecrScanRepository_shift now region cfg repo r]
      simp [List.append_assoc, Nat.add_assoc]

/-- The AR repository loop, same shift property. -/
theorem arRepoFold_shift (now : Int) (cfg : ScanConfig)
    (repos : List ARRepoEnv) (r : ScanResult) :
    repos.foldl
        (fun r rep =>
          if cfg.excludeResourceIDs.contains rep.repo.repoID then r
          else arScanRepository now cfg rep r) r =
      { findings := r.findings ++
          (repos.foldl
            (fun r rep =>
              if cfg.excludeResourceIDs.contains rep.repo.repoID then r
              else arScanRepository now cfg rep r) {}).findings,
        errors := r.errors ++
          (repos.foldl
            (fun r rep =>
              if cfg.excludeResourceIDs.contains rep.repo.repoID then r
              else arScanRepository now cfg rep r) {}).errors,
        resourcesScanned := r.resourcesScanned +
          (repos.foldl
            (fun r rep =>
              if cfg.excludeResourceIDs.contains rep.repo.repoID then r
              else arScanRepository now cfg rep r) {}).resourcesScanned,
        repositoriesScanned := r.repositoriesScanned } := by
  induction repos generalizing r with
  | nil => simp
  | cons rep rest ih =>
    rw [List.foldl_cons, List.foldl_cons]
    by_cases hex : cfg.excludeResourceIDs.contains rep.repo.repoID
    · rw [if_pos hex, if_pos hex]
      exact ih r
    · rw [if_neg hex, if_neg hex, ih (arScanRepository now cfg rep r),
          ih (arScanRepository now cfg rep {}),
          arScanRepository_shift now cfg rep r]
      simp [List.append_assoc, Nat.add_assoc]

/-- ar.scanRepository never contributes a NO_LIFECYCLE_POLICY or
VULNERABLE_IMAGE finding. -/
theorem arScanRepository_countP_forbidden (now : Int) (cfg : ScanConfig)
    (env : ARRepoEnv) (r : ScanResult) :
    (arScanRepository now cfg env r).findings.countP isGcpForbidden =
      r.findings.countP isGcpForbidden := by
  have h0 : (arScanRepository now cfg env {}).findings.countP isGcpForbidden = 0 := by
    cases he : env.listDockerImages with
    | error e =>
      rw [arScanRepository_listErr now cfg env {} e he]
      rfl
    | ok images =>
      by_cases hne : images = []
      · subst hne
        unfold arScanRepository
        rw [he]
        simp [arEmptyRepoFinding, isGcpForbidden, hasID]
      · rw [arScanRepository_ok now cfg env images {} he hne]
        simp only []
        split <;>
          simp [List.countP_append, countP_flatMap, arAnalyze_countP_forbidden,
            sum_map_zero, arAllStaleFinding, isGcpForbidden, hasID]
  rw [arScanRepository_shift, List.countP_append]
  simp [h0]

/-! # Claim theorems -/

/-- C1: for every image classified by the ECR scanner, exactly one
STALE_IMAGE finding — and exactly one severity-high STALE_IMAGE finding —
is produced exactly when `staleDays > 0` and the last-activity instant
(last pull if recorded, else push time) is more than `staleDays` days
before now; with neither timestamp, or `staleDays = 0`, no STALE_IMAGE
finding is produced. -/
theorem C1_stale_image_rule (now : Int) (region : String) (cfg : ScanConfig)
    (repoName : String) (img : EcrImage) :
    ((ecrAnalyzeImage now region cfg repoName img).countP (hasID .staleImage)
        = if ecrStaleHit now cfg img then 1 else 0)
    ∧ ((ecrAnalyzeImage now region cfg repoName img).countP isStaleHigh
        = if ecrStaleHit now cfg img then 1 else 0) :=
  ⟨ecrAnalyze_countP_stale now region cfg repoName img,
   ecrAnalyze_countP_staleHigh now region cfg repoName img⟩

/-- C3 counterexample: a tagged image pushed 200 days ago (never pulled)
whose manifest media type is the OCI image index — a multi-platform
manifest — satisfies the stale rule (one STALE_IMAGE finding is emitted),
yet the ECR scanner emits no MULTI_ARCH_BLOAT finding for it, because it
only looks for the substring `"manifest.list"`. -/
theorem C3_counterexample_oci_index_not_flagged :
    ecrStaleHit nowT cfg90 ociIndexImage = true
    ∧ (ecrAnalyzeImage nowT "us-east-1" cfg90 "myapp" ociIndexImage).countP
        (hasID .staleImage) = 1
    ∧ (ecrAnalyzeImage nowT "us-east-1" cfg90 "myapp" ociIndexImage).countP
        (hasID .multiArchBloat) = 0 := by
  refine ⟨by decide, ?_, ?_⟩ <;> decide

/-- C3 amended: a MULTI_ARCH_BLOAT finding (severity low) is produced
exactly when the image is independently flagged stale AND the media-type
test of the particular scanner passes — for the ECR scanner the manifest
media type must be present and contain `"manifest.list"` (an OCI image
index is not recognized); for the GCP scanner the media type may contain
either `"manifest.list"` or `"image.index"`. -/
theorem C3_amended_multi_arch_rule :
    (∀ (now : Int) (region : String) (cfg : ScanConfig) (repoName : String)
        (img : EcrImage),
      ((ecrAnalyzeImage now region cfg repoName img).countP (hasID .multiArchBloat)
          = if ecrMultiHit img && ecrStaleHit now cfg img then 1 else 0)
      ∧ ((ecrAnalyzeImage now region cfg repoName img).countP isMultiLow
          = if ecrMultiHit img && ecrStaleHit now cfg img then 1 else 0))
    ∧ (∀ (now : Int) (cfg : ScanConfig) (repo : ARRepository) (img : DockerImage),
      ((arAnalyzeImage now cfg repo img).countP (hasID .multiArchBloat)
          = if arMultiHit img && arStaleHit now cfg img then 1 else 0)
      ∧ ((arAnalyzeImage now cfg repo img).countP isMultiLow
          = if arMultiHit img && arStaleHit now cfg img then 1 else 0)) :=
  ⟨fun now region cfg repoName img =>
    ⟨ecrAnalyze_countP_multi now region cfg repoName img,
     ecrAnalyze_countP_multiLow now region cfg repoName img⟩,
   fun now cfg repo img =>
    ⟨arAnalyze_countP_multi now cfg repo img,
     arAnalyze_countP_multiLow now cfg repo img⟩⟩

/-- C4 counterexample: when the vulnerability lookup
(`DescribeImageScanFindings`) fails, ScanVulnerabilities returns no
findings and a nil error — the failure is logged at debug level and
silently dropped, not surfaced as an error string. -/
theorem C4_counterexample_vuln_error_swallowed :
    scanVulnerabilities "us-east-1" "myapp" "sha256:abc" (Except.error "throttled")
      = ([], none) := rfl

/-- C4 amended: a failed image listing appends exactly one error string and
changes nothing else; a failed lifecycle lookup appends exactly one error
string while the repository's images are still classified; a repository
whose listing fails does not stop its siblings from being scanned; but a
failed vulnerability lookup is swallowed — it yields no error string and an
empty finding list. -/
theorem C4_amended_error_strings :
    (∀ (now : Int) (region : String) (cfg : ScanConfig) (repo : EcrRepoEnv)
        (r : ScanResult) (e : String),
      repo.listImages = Except.error e →
      ecrScanRepository now region cfg repo r =
        { r with errors :=
            r.errors ++ [region ++ "/" ++ deref repo.repositoryName ++ ": " ++ e] })
    ∧ (∀ (now : Int) (region : String) (cfg : ScanConfig) (repo : EcrRepoEnv)
        (images : List EcrImage) (r : ScanResult) (e : String),
      repo.listImages = Except.ok images → images ≠ [] →
      repo.hasLifecyclePolicy = Except.error e →
      ((ecrScanRepository now region cfg repo r).errors =
          r.errors ++ [region ++ "/" ++ deref repo.repositoryName ++ " lifecycle: " ++ e]
        ∧ (ecrScanRepository now region cfg repo r).resourcesScanned =
          r.resourcesScanned + images.length))
    ∧ (∀ (now : Int) (region : String) (cfg : ScanConfig) (bad : EcrRepoEnv)
        (rest : List EcrRepoEnv) (e : String),
      bad.listImages = Except.error e →
      cfg.excludeResourceIDs.contains (deref bad.repositoryName) = false →
      ecrScan now region cfg ⟨Except.ok (bad :: rest)⟩ =
        { ecrScan now region cfg ⟨Except.ok rest⟩ with
            errors := (region ++ "/" ++ deref bad.repositoryName ++ ": " ++ e)
              :: (ecrScan now region cfg ⟨Except.ok rest⟩).errors,
            repositoriesScanned := rest.length + 1 })
    ∧ (∀ (region repoName digest e : String),
      scanVulnerabilities region repoName digest (Except.error e) = ([], none)) := by
  refine ⟨?_, ?_, ?_, ?_⟩
  · intro now region cfg repo r e he
    exact ecrScanRepository_listErr now region cfg repo r e he
  · intro now region cfg repo images r e hok hne hlc
    rw [ecrScanRepository_ok now region cfg repo images r hok hne]
    simp only [hlc]
    constructor
    · split <;> simp
    · split <;> simp
  · intro now region cfg bad rest e he hex
    unfold ecrScan
    simp only [List.foldl_cons, hex, Bool.false_eq_true, if_false]
    rw [ecrScanRepository_listErr now region cfg bad _ e he]
    simp only [List.nil_append, List.length_cons]
    rw [ecrRepoFold_shift now region cfg rest
        { findings := [], errors := [region ++ "/" ++ deref bad.repositoryName ++ ": " ++ e],
          resourcesScanned := 0, repositoriesScanned := rest.length + 1 },
        ecrRepoFold_shift now region cfg rest
        { findings := [], errors := [], resourcesScanned := 0,
          repositoriesScanned := rest.length }]
    simp
  · intro region repoName digest e
    rfl

/-- C6: `MonthlyStorageCost` equals `sizeBytes / 2^30` times the rate found
by the spec's cascade — exact (provider, region), then (provider,
"default"), then the global default — it never fails for unknown providers
or regions (it is a total function), and zero bytes cost exactly zero. -/
theorem C6_monthly_cost_oracle (provider region : String) (sizeBytes : Int) :
    MonthlyStorageCost provider region sizeBytes
      = (sizeBytes : ℚ) / 2 ^ 30 * lookupCascadeSpec provider region
    ∧ lookupCostPerGB provider region = lookupCascadeSpec provider region
    ∧ MonthlyStorageCost provider region 0 = 0 := by
  refine ⟨?_, lookupCostPerGB_eq_cascade provider region, ?_⟩
  · unfold MonthlyStorageCost
    rw [lookupCostPerGB_eq_cascade]
    norm_num
  · simp [MonthlyStorageCost]

/-- C7: for a fixed provider and region, `MonthlyStorageCost` is
monotonically non-decreasing in the byte size, and non-negative for any
non-negative size. -/
theorem C7_cost_monotone_nonneg (provider region : String) (s1 s2 : Int)
    (h0 : 0 ≤ s1) (h12 : s1 ≤ s2) :
    MonthlyStorageCost provider region s1 ≤ MonthlyStorageCost provider region s2
    ∧ 0 ≤ MonthlyStorageCost provider region s1 := by
  have hr := lookupCostPerGB_nonneg provider region
  unfold MonthlyStorageCost
  constructor
  · apply mul_le_mul_of_nonneg_right _ hr
    have hc : (s1 : ℚ) ≤ (s2 : ℚ) := by exact_mod_cast h12
    gcongr
  · apply mul_nonneg (div_nonneg _ (by norm_num)) hr
    exact_mod_cast h0

/-- Witness for C7 at 1 GiB ≤ 5 GiB on ECR us-east-1. -/
theorem C7_cost_monotone_nonneg_witness :
    (0:Int) ≤ 1073741824 ∧ (1073741824:Int) ≤ 5368709120 ∧
    (MonthlyStorageCost "ecr" "us-east-1" 1073741824
        ≤ MonthlyStorageCost "ecr" "us-east-1" 5368709120
      ∧ 0 ≤ MonthlyStorageCost "ecr" "us-east-1" 1073741824) :=
  ⟨by norm_num, by norm_num,
   C7_cost_monotone_nonneg "ecr" "us-east-1" 1073741824 5368709120
     (by norm_num) (by norm_num)⟩

/-- C8: when repository listing itself fails, the scan for that
provider/region aborts — the result carries zero findings, exactly one
error string, and zero scanned-resource counters.  Shown for the ECR
scanner (whose invocation makes a single listing call) and for an AR
invocation over a single location. -/
theorem C8_listing_failure_aborts (now : Int) (region : String) (cfg : ScanConfig)
    (e loc : String) :
    ecrScan now region cfg ⟨Except.error e⟩ =
      { findings := [], errors := [region ++ ": " ++ e],
        resourcesScanned := 0, repositoriesScanned := 0 }
    ∧ arScan now cfg [⟨loc, Except.error e⟩] =
      { findings := [], errors := [loc ++ ": " ++ e],
        resourcesScanned := 0, repositoriesScanned := 0 } :=
  ⟨rfl, rfl⟩

/-- C9: a GCP Artifact Registry scan never emits a NO_LIFECYCLE_POLICY or
VULNERABLE_IMAGE finding, for any inventory and configuration. -/
theorem C9_gcp_never_lifecycle_or_vuln (now : Int) (cfg : ScanConfig)
    (locs : List ARLocationEnv) :
    (arScan now cfg locs).findings.countP isGcpForbidden = 0 := by
  unfold arScan
  refine foldl_preserves _ (fun r : ScanResult => r.findings.countP isGcpForbidden = 0)
    locs _ ?_ rfl
  intro r loc hr
  cases hl : loc.listRepositories with
  | error e =>
    simp only [hl]
    simpa using hr
  | ok repos =>
    simp only [hl]
    refine foldl_preserves _ (fun r : ScanResult => r.findings.countP isGcpForbidden = 0)
      repos _ ?_ ?_
    · intro r' rep hr'
      by_cases hex : cfg.excludeResourceIDs.contains rep.repo.repoID
      · rw [if_pos hex]
        exact hr'
      · rw [if_neg hex, arScanRepository_countP_forbidden]
        exact hr'
    · simpa using hr

/-- C5: the Analyzer retains exactly the findings whose estimated monthly
waste is at least the threshold (the boundary is inclusive), computes the
total waste, total finding count, and both histograms over the filtered set
only, passes the error strings through unmodified, echoes the scan
counters, and — being a total function — never fails. -/
theorem C5_analyzer_contract (result : ScanResult) (cfg : AnalyzerConfig) :
    (Analyze result cfg).findings =
      result.findings.filter (fun f => cfg.minMonthlyCost ≤ f.estimatedMonthlyWaste)
    ∧ (Analyze result cfg).errors = result.errors
    ∧ (Analyze result cfg).summary.totalFindings =
        (result.findings.filter (fun f => cfg.minMonthlyCost ≤ f.estimatedMonthlyWaste)).length
    ∧ (Analyze result cfg).summary.totalMonthlyWaste =
        ((result.findings.filter (fun f => cfg.minMonthlyCost ≤ f.estimatedMonthlyWaste)).map
          (fun f => f.estimatedMonthlyWaste)).sum
    ∧ (∀ k, mapGetNat (Analyze result cfg).summary.bySeverity k =
        (result.findings.filter (fun f => cfg.minMonthlyCost ≤ f.estimatedMonthlyWaste)).countP
          (fun f => severityString f.severity == k))
    ∧ (∀ k, mapGetNat (Analyze result cfg).summary.byResourceType k =
        (result.findings.filter (fun f => cfg.minMonthlyCost ≤ f.estimatedMonthlyWaste)).countP
          (fun f => resourceTypeString f.resourceType == k))
    ∧ (Analyze result cfg).summary.totalResourcesScanned = result.resourcesScanned
    ∧ (Analyze result cfg).summary.repositoriesScanned = result.repositoriesScanned := by
  obtain ⟨hW, hS, hR, h4, h5, h6⟩ :=
    analyzeSummaryFold
      (result.findings.filter (fun f => cfg.minMonthlyCost ≤ f.estimatedMonthlyWaste))
      { totalResourcesScanned := result.resourcesScanned,
        totalFindings :=
          (result.findings.filter (fun f => cfg.minMonthlyCost ≤ f.estimatedMonthlyWaste)).length,
        totalMonthlyWaste := 0,
        bySeverity := [], byResourceType := [],
        repositoriesScanned := result.repositoriesScanned }
  refine ⟨rfl, rfl, ?_, ?_, ?_, ?_, ?_, ?_⟩
  · exact h5
  · simpa using hW
  · intro k
    simpa [mapGetNat, List.lookup] using hS k
  · intro k
    simpa [mapGetNat, List.lookup] using hR k
  · exact h4
  · exact h6

/-- C10: when repository listing succeeds, RepositoriesScanned counts every
listed repository, excluded ones included, while an excluded repository
contributes no findings, no error strings, and no ResourcesScanned
increments — the scan's remaining output equals that of a scan over the
non-excluded sublist.  Shown for the ECR scanner and for an AR invocation
over a single location. -/
theorem C10_exclusion_and_counting :
    (∀ (now : Int) (region : String) (cfg : ScanConfig) (repos : List EcrRepoEnv),
      (ecrScan now region cfg ⟨Except.ok repos⟩).repositoriesScanned = repos.length
      ∧ (ecrScan now region cfg ⟨Except.ok repos⟩).findings =
          (ecrScan now region cfg ⟨Except.ok (repos.filter (fun repo =>
            !(cfg.excludeResourceIDs.contains (deref repo.repositoryName))))⟩).findings
      ∧ (ecrScan now region cfg ⟨Except.ok repos⟩).errors =
          (ecrScan now region cfg ⟨Except.ok (repos.filter (fun repo =>
            !(cfg.excludeResourceIDs.contains (deref repo.repositoryName))))⟩).errors
      ∧ (ecrScan now region cfg ⟨Except.ok repos⟩).resourcesScanned =
          (ecrScan now region cfg ⟨Except.ok (repos.filter (fun repo =>
            !(cfg.excludeResourceIDs.contains (deref repo.repositoryName))))⟩).resourcesScanned)
    ∧ (∀ (now : Int) (cfg : ScanConfig) (loc : String) (repos : List ARRepoEnv),
      (arScan now cfg [⟨loc, Except.ok repos⟩]).repositoriesScanned = repos.length
      ∧ (arScan now cfg [⟨loc, Except.ok repos⟩]).findings =
          (arScan now cfg [⟨loc, Except.ok (repos.filter (fun rep =>
            !(cfg.excludeResourceIDs.contains rep.repo.repoID)))⟩]).findings
      ∧ (arScan now cfg [⟨loc, Except.ok repos⟩]).errors =
          (arScan now cfg [⟨loc, Except.ok (repos.filter (fun rep =>
            !(cfg.excludeResourceIDs.contains rep.repo.repoID)))⟩]).errors
      ∧ (arScan now cfg [⟨loc, Except.ok repos⟩]).resourcesScanned =
          (arScan now cfg [⟨loc, Except.ok (repos.filter (fun rep =>
            !(cfg.excludeResourceIDs.contains rep.repo.repoID)))⟩]).resourcesScanned) := by
  constructor
  · intro now region cfg repos
    have hfil := ecrRepoFold_filter now region cfg repos ({} : ScanResult)
    have h1 := ecrRepoFold_shift now region cfg repos
      { findings := [], errors := [], resourcesScanned := 0,
        repositoriesScanned := repos.length }
    have h2 := ecrRepoFold_shift now region cfg
      (repos.filter (fun repo =>
        !(cfg.excludeResourceIDs.contains (deref repo.repositoryName))))
      { findings := [], errors := [], resourcesScanned := 0,
        repositoriesScanned := (repos.filter (fun repo =>
          !(cfg.excludeResourceIDs.contains (deref repo.repositoryName)))).length }
    simp only [ecrScan]
    rw [h1, h2, hfil]
    exact ⟨rfl, rfl, rfl, rfl⟩
  · intro now cfg loc repos
    have hfil := arRepoFold_filter now cfg repos ({} : ScanResult)
    have h1 := arRepoFold_shift now cfg repos
      { findings := [], errors := [], resourcesScanned := 0,
        repositoriesScanned := 0 + repos.length }
    have h2 := arRepoFold_shift now cfg
      (repos.filter (fun rep => !(cfg.excludeResourceIDs.contains rep.repo.repoID)))
      { findings := [], errors := [], resourcesScanned := 0,
        repositoriesScanned := 0 + (repos.filter (fun rep =>
          !(cfg.excludeResourceIDs.contains rep.repo.repoID))).length }
    simp only [arScan, List.foldl_cons, List.foldl_nil]
    rw [h1, h2, hfil]
    exact ⟨by simp, rfl, rfl, rfl⟩

/-- C2: for a repository whose image listing succeeds with at least one
image, exactly one repository-scoped UNUSED_REPO finding is emitted when
every image was flagged stale — its waste being the sum of the images'
individual monthly storage costs and its metadata recording the image
count — and none is emitted when some image was not flagged.  Shown for
both scanners. -/
theorem C2_all_stale_unused_repo :
    (∀ (now : Int) (region : String) (cfg : ScanConfig) (repo : EcrRepoEnv)
        (images : List EcrImage),
      repo.listImages = Except.ok images → images ≠ [] →
      (((ecrScanRepository now region cfg repo {}).findings.countP (hasID .unusedRepo)
          = if images.all (fun img =>
              ecrImageFlaggedStale now region cfg (deref repo.repositoryName) img)
            then 1 else 0)
        ∧ (images.all (fun img =>
              ecrImageFlaggedStale now region cfg (deref repo.repositoryName) img) = true →
            ∃ f ∈ (ecrScanRepository now region cfg repo {}).findings,
              f.id = .unusedRepo ∧ f.resourceType = .repository
              ∧ f.estimatedMonthlyWaste = (images.map (fun img =>
                  MonthlyStorageCost "ecr" region (derefInt64 img.imageSizeInBytes))).sum
              ∧ ("image_count", MetaValue.int images.length) ∈ f.metadata)))
    ∧ (∀ (now : Int) (cfg : ScanConfig) (env : ARRepoEnv) (images : List DockerImage),
      env.listDockerImages = Except.ok images → images ≠ [] →
      (((arScanRepository now cfg env {}).findings.countP (hasID .unusedRepo)
          = if images.all (arImageFlaggedStale now cfg env.repo) then 1 else 0)
        ∧ (images.all (arImageFlaggedStale now cfg env.repo) = true →
            ∃ f ∈ (arScanRepository now cfg env {}).findings,
              f.id = .unusedRepo ∧ f.resourceType = .repository
              ∧ f.estimatedMonthlyWaste = (images.map (fun img =>
                  MonthlyStorageCost "artifactregistry" env.repo.location img.sizeBytes)).sum
              ∧ ("image_count", MetaValue.int images.length) ∈ f.metadata))) := by
  constructor
  · intro now region cfg repo images hok hne
    rw [ecrScanRepository_ok now region cfg repo images {} hok hne]
    simp only [ecrStaleSum_eq_length_iff]
    by_cases hall : images.all (fun img =>
        ecrImageFlaggedStale now region cfg (deref repo.repositoryName) img) = true
    · simp only [hall, if_true]
      constructor
      · cases hp : repo.hasLifecyclePolicy with
        | error e =>
          simp [List.countP_append, countP_flatMap, ecrAnalyze_countP_unused,
            sum_map_zero, ecrAllStaleFinding, hasID]
        | ok b =>
          cases b <;>
            simp [List.countP_append, countP_flatMap, ecrAnalyze_countP_unused,
              sum_map_zero, ecrAllStaleFinding, ecrNoLifecycleFinding, hasID]
      · intro _
        refine ⟨ecrAllStaleFinding region (deref repo.repositoryName) images, ?_,
          rfl, rfl, rfl, by simp [ecrAllStaleFinding]⟩
        cases hp : repo.hasLifecyclePolicy with
        | error e => simp
        | ok b => cases b <;> simp
    · have hallf : images.all (fun img =>
          ecrImageFlaggedStale now region cfg (deref repo.repositoryName) img) = false := by
        rwa [Bool.not_eq_true] at hall
      simp only [hallf, Bool.false_eq_true, if_false]
      constructor
      · cases hp : repo.hasLifecyclePolicy with
        | error e =>
          simp [List.countP_append, countP_flatMap, ecrAnalyze_countP_unused,
            sum_map_zero, hasID]
        | ok b =>
          cases b <;>
            simp [List.countP_append, countP_flatMap, ecrAnalyze_countP_unused,
              sum_map_zero, ecrNoLifecycleFinding, hasID]
      · intro hcontr
        exact absurd hcontr (by simp [hallf])
  · intro now cfg env images hok hne
    rw [arScanRepository_ok now cfg env images {} hok hne]
    simp only [arStaleSum_eq_length_iff]
    by_cases hall : images.all (arImageFlaggedStale now cfg env.repo) = true
    · simp only [hall, if_true]
      constructor
      · simp [List.countP_append, countP_flatMap, arAnalyze_countP_unused,
          sum_map_zero, arAllStaleFinding, hasID]
      · intro _
        exact ⟨arAllStaleFinding env.repo images, by simp, rfl, rfl, rfl,
          by simp [arAllStaleFinding]⟩
    · have hallf : images.all (arImageFlaggedStale now cfg env.repo) = false := by
        rwa [Bool.not_eq_true] at hall
      simp only [hallf, Bool.false_eq_true, if_false]
      constructor
      · simp [List.countP_append, countP_flatMap, arAnalyze_countP_unused,
          sum_map_zero, hasID]
      · intro hcontr
        exact absurd hcontr (by simp [hallf])

/-- Witness for C2 on a concrete repository with two stale images. -/
theorem C2_all_stale_unused_repo_witness :
    (allStaleRepoEnv.listImages = Except.ok [staleImage200, staleImage200b]
      ∧ [staleImage200, staleImage200b] ≠ ([] : List EcrImage))
    ∧ (((ecrScanRepository nowT "us-east-1" cfg90 allStaleRepoEnv {}).findings.countP
          (hasID .unusedRepo)
        = if [staleImage200, staleImage200b].all (fun img =>
            ecrImageFlaggedStale nowT "us-east-1" cfg90
              (deref allStaleRepoEnv.repositoryName) img)
          then 1 else 0)
      ∧ ([staleImage200, staleImage200b].all (fun img =>
            ecrImageFlaggedStale nowT "us-east-1" cfg90
              (deref allStaleRepoEnv.repositoryName) img) = true →
          ∃ f ∈ (ecrScanRepository nowT "us-east-1" cfg90 allStaleRepoEnv {}).findings,
            f.id = .unusedRepo ∧ f.resourceType = .repository
            ∧ f.estimatedMonthlyWaste = ([staleImage200, staleImage200b].map (fun img =>
                MonthlyStorageCost "ecr" "us-east-1" (derefInt64 img.imageSizeInBytes))).sum
            ∧ ("image_count", MetaValue.int ([staleImage200, staleImage200b] : List EcrImage).length)
                ∈ f.metadata)) :=
  ⟨⟨rfl, by simp⟩,
   C2_all_stale_unused_repo.1 nowT "us-east-1" cfg90 allStaleRepoEnv
     [staleImage200, staleImage200b] rfl (by simp)⟩

/-- Witness for C4's amended statement on concrete failing environments. -/
theorem C4_amended_error_strings_witness :
    (brokenListEnv.listImages = Except.error "throttled"
      ∧ ecrScanRepository nowT "us-east-1" cfg90 brokenListEnv {} =
          { ({} : ScanResult) with
              errors := ({} : ScanResult).errors ++
                ["us-east-1" ++ "/" ++ deref brokenListEnv.repositoryName ++ ": " ++ "throttled"] })
    ∧ (brokenLifecycleEnv.listImages = Except.ok [staleImage200]
      ∧ ([staleImage200] : List EcrImage) ≠ []
      ∧ brokenLifecycleEnv.hasLifecyclePolicy = Except.error "access denied"
      ∧ ((ecrScanRepository nowT "us-east-1" cfg90 brokenLifecycleEnv {}).errors =
            ({} : ScanResult).errors ++
              ["us-east-1" ++ "/" ++ deref brokenLifecycleEnv.repositoryName
                ++ " lifecycle: " ++ "access denied"]
        ∧ (ecrScanRepository nowT "us-east-1" cfg90 brokenLifecycleEnv {}).resourcesScanned =
            ({} : ScanResult).resourcesScanned + ([staleImage200] : List EcrImage).length))
    ∧ (brokenListEnv.listImages = Except.error "throttled"
      ∧ cfg90.excludeResourceIDs.contains (deref brokenListEnv.repositoryName) = false
      ∧ ecrScan nowT "us-east-1" cfg90 ⟨Except.ok [brokenListEnv]⟩ =
          { ecrScan nowT "us-east-1" cfg90 ⟨Except.ok []⟩ with
              errors := ("us-east-1" ++ "/" ++ deref brokenListEnv.repositoryName ++ ": " ++ "throttled")
                :: (ecrScan nowT "us-east-1" cfg90 ⟨Except.ok []⟩).errors,
              repositoriesScanned := ([] : List EcrRepoEnv).length + 1 })
    ∧ scanVulnerabilities "us-east-1" "myapp" "sha256:abc" (Except.error "boom") = ([], none) :=
  ⟨⟨rfl, C4_amended_error_strings.1 nowT "us-east-1" cfg90 brokenListEnv {} "throttled" rfl⟩,
   ⟨rfl, by simp, rfl,
    C4_amended_error_strings.2.1 nowT "us-east-1" cfg90 brokenLifecycleEnv
      [staleImage200] {} "access denied" rfl (by simp) rfl⟩,
   ⟨rfl, rfl,
    C4_amended_error_strings.2.2.1 nowT "us-east-1" cfg90 brokenListEnv [] "throttled" rfl rfl⟩,
   C4_amended_error_strings.2.2.2 "us-east-1" "myapp" "sha256:abc" "boom"⟩

end EcrSpectre
